import Mathlib

/-!
# Grid proxy explorer: node cache, twin resolver, fleet warmer, liveness loop

A shallow embedding of `internal/explorer/helpers.go` and the liveness loop of
`internal/explorer/server.go`.  Stateful code is written in state-passing style
over `App` (the in-memory twin cache and the content of the durable store);
every function also returns the list of calls it made to its collaborators.
The answers of the collaborators during one call (directory service, remote
node, store faults, clock) are collected in a `World`.
-/

namespace Explorer

/-! ## Errors -/

/-- Go error values: the two sentinels of `server.go`, errors produced by external
libraries, and wrapping (`fmt.Errorf` with `%w`, `errors.Wrap`). -/
inductive Err where
  | ErrNodeNotFound : Err
  | ErrBadGateway : Err
  | ext (msg : String) : Err
  | wrap (msg : String) (cause : Err) : Err
  deriving DecidableEq, Repr

/-- Go `errors.Is`: the target is the error itself or occurs in its chain of causes. -/
def errorsIs : Err → Err → Bool
  | .wrap m c, target => decide (Err.wrap m c = target) || errorsIs c target
  | .ErrNodeNotFound, target => decide (Err.ErrNodeNotFound = target)
  | .ErrBadGateway, target => decide (Err.ErrBadGateway = target)
  | .ext m, target => decide (Err.ext m = target)

/-! ## Data -/

/-- Capacity counters of the node client library, carried as data. -/
structure GridCapacity where
  CRU : Nat
  SRU : Nat
  HRU : Nat
  MRU : Nat
  IPV4U : Nat
  deriving DecidableEq, Repr

/-- DMI report of the node client library, carried as data. -/
structure DMI where
  Sections : List String
  deriving DecidableEq, Repr

structure capacityResult where
  Total : GridCapacity
  Used : GridCapacity
  deriving DecidableEq, Repr

structure NodeInfo where
  Capacity : capacityResult
  DMI : DMI
  Hypervisor : String
  deriving DecidableEq, Repr

/-- One record of a directory answer. -/
structure DirRecord where
  NodeID : Nat
  TwinID : Nat
  deriving DecidableEq, Repr

/-- A node of the list answer; `State` is the field the liveness loop assigns. -/
structure Node where
  NodeID : Nat
  FarmID : Nat
  TwinID : Nat
  State : String
  deriving DecidableEq, Repr

/-- Item of the in-memory cache (go-cache): the object and its expiration time,
`0` meaning no expiration. Times are in seconds. -/
structure CacheItem where
  Object : Nat
  Expiration : Nat
  deriving DecidableEq, Repr

/-- Entry of the durable store: the value and the time at which it expires. -/
structure RedisItem where
  value : String
  expiresAt : Nat
  deriving DecidableEq, Repr

/-- The application state: twin cache and the content of the durable store. -/
structure App where
  lruCache : List (String × CacheItem)
  redis : List (String × RedisItem)
  deriving DecidableEq, Repr

/-- Encoders of the library types, used by the JSON serialisation of `NodeInfo`. -/
structure Encoders where
  capacity : GridCapacity → Except String String
  dmi : DMI → Except String String
  hypervisor : String → Except String String

/-- Answers of the collaborators during one call. -/
structure World where
  /-- The clock, in seconds. -/
  now : Nat
  /-- A fault of the store on reading. -/
  redisGetErr : Option String
  /-- What a read of a key without value reports as error (`none`: no error). -/
  redisNilErr : Option String
  /-- A fault of the store on writing. -/
  redisSetErr : Option String
  /-- The directory service: query string to decoded records. -/
  query : String → Except String (List DirRecord)
  /-- The remote node, addressed by twin id. -/
  counters : Nat → Except String (GridCapacity × GridCapacity)
  systemDMI : Nat → Except String DMI
  systemHypervisor : Nat → Except String String
  enc : Encoders

/-- Calls to collaborators and entries of functions, in the order they happen. -/
inductive Event where
  | redisGet (key : String) : Event
  | redisSet (key : String) (value : String) (ttl : Nat) : Event
  | query (queryString : String) : Event
  | counters (twinID : Nat) : Event
  | systemDMI (twinID : Nat) : Event
  | systemHypervisor (twinID : Nat) : Event
  | callFetchNodeData (nodeID : String) : Event
  | callGetNodeData (nodeID : String) : Event
  | log (level : String) (msg : String) : Event
  /-- The error line `could not fetch node data <id>` of `cacheNodesInfo`. -/
  | fetchFailed (nodeID : Nat) : Event
  deriving DecidableEq, Repr

/-- Result of a call: the returned value, the state afterwards, the calls made. -/
structure Out (α : Type) where
  val : α
  app : App
  trace : List Event

/-! ## The in-memory cache (go-cache) and the durable store -/

/-- Default expiration of the twin cache, `cache.New(10*time.Minute, 15*time.Minute)`. -/
def defaultExpiration : Nat := 10 * 60

/-- The go-cache `Get`: the item is found unless it has an expiration in the past. -/
def lruGet (c : List (String × CacheItem)) (now : Nat) (k : String) : Option Nat :=
  match c.lookup k with
  | some it => if it.Expiration > 0 ∧ now > it.Expiration then none else some it.Object
  | none => none

/-- The go-cache `Set` with `cache.DefaultExpiration`. -/
def lruSet (c : List (String × CacheItem)) (now : Nat) (k : String) (v : Nat) :
    List (String × CacheItem) :=
  (k, ⟨v, now + defaultExpiration⟩) :: c.filter (fun p => p.1 ≠ k)

/-- The value the store holds under a key at a given time. -/
def redisLive (r : List (String × RedisItem)) (now : Nat) (k : String) : Option String :=
  match r.lookup k with
  | some it => if now < it.expiresAt then some it.value else none
  | none => none

/-- The keys under which the store holds a value at a given time. -/
def redisKeys (r : List (String × RedisItem)) (now : Nat) : List String :=
  (r.filter (fun p => now < p.2.expiresAt)).map (fun p => p.1)

/-- Replace the entry of a key. -/
def redisPut (r : List (String × RedisItem)) (k : String) (it : RedisItem) :
    List (String × RedisItem) :=
  (k, it) :: r.filter (fun p => p.1 ≠ k)

/-- Modelled from the spec: `GetRedisKey`, the lookup of the durable store, whose
source is not part of the files at hand. The lookup may fail; otherwise it returns
the value held under the key, or the empty string when there is none. -/
def GetRedisKey (w : World) (a : App) (key : String) : String × Option Err :=
  match w.redisGetErr with
  | some e => ("", some (.ext e))
  | none =>
    match redisLive a.redis w.now key with
    | some v => (v, none)
    | none => ("", w.redisNilErr.map Err.ext)

/-- Modelled from the spec: `SetRedisKey`, the write to the durable store with a TTL
in seconds, whose source is not part of the files at hand. A failed write leaves
the store as it was. -/
def SetRedisKey (w : World) (a : App) (key : String) (value : String) (ttl : Nat) :
    Option Err × App :=
  match w.redisSetErr with
  | some e => (some (.ext e), a)
  | none => (none, { a with redis := redisPut a.redis key ⟨value, w.now + ttl⟩ })

/-! ## Formatting -/

/-- Go `fmt.Sprint` of an unsigned integer. -/
def fmtSprint (n : Nat) : String := Nat.repr n

/-- Go `%d` of an unsigned integer. -/
def fmtD (n : Nat) : String := Nat.repr n

/-- Key of a node in the durable store, `fmt.Sprintf("GRID3NODE:%s", nodeID)`. -/
def nodeKey (nodeID : String) : String := "GRID3NODE:" ++ nodeID

/-- Key the liveness loop looks up, `fmt.Sprintf("GRID3NODE:%d", node.NodeID)`. -/
def nodeKeyD (nodeID : Nat) : String := "GRID3NODE:" ++ fmtD nodeID

/-- Query string of `getNodeTwinID`. -/
def twinQuery (nodeID : String) : String :=
  "\n\t\x7b\n\t\tnodes(where:\x7bnodeId_eq:" ++ nodeID ++
    "\x7d)\x7b\n\t\t  twinId\n\t\t\x7d\n\t\x7d\n\t"

/-- Query string of `getAllNodesIDs`. -/
def allNodesQuery : String :=
  "\n\t\x7b\n\t\tnodes\x7b\n\t\t\tnodeId\n\t\t\x7d    \n\t\x7d\n\t"

/-- Modelled from the spec: the JSON layout of `NodeInfo`, whose declaration (and
field tags) is not part of the files at hand:
an object with `capacity` (`total`, `used`), `dmi` and `hypervisor`. -/
def jsonMarshal (enc : Encoders) (n : NodeInfo) : Except String String :=
  match enc.capacity n.Capacity.Total with
  | .error e => .error e
  | .ok t =>
    match enc.capacity n.Capacity.Used with
    | .error e => .error e
    | .ok u =>
      match enc.dmi n.DMI with
      | .error e => .error e
      | .ok d =>
        match enc.hypervisor n.Hypervisor with
        | .error e => .error e
        | .ok h =>
          .ok ("\x7b\"capacity\":\x7b\"total\":" ++ t ++ ",\"used\":" ++ u ++
            "\x7d,\"dmi\":" ++ d ++ ",\"hypervisor\":" ++ h ++ "\x7d")

/-! ## helpers.go -/

def getNodeTwinID (w : World) (a : App) (nodeID : String) : Out (Except Err Nat) :=
  match lruGet a.lruCache w.now nodeID with
  | some twinID => ⟨.ok twinID, a, []⟩
  | none =>
    let queryString := twinQuery nodeID
    match w.query queryString with
    | .error e => ⟨.error (.wrap "failed to query node" (.ext e)), a, [.query queryString]⟩
    | .ok nodeStats =>
      match nodeStats with
      | r :: _ =>
        ⟨.ok r.TwinID, { a with lruCache := lruSet a.lruCache w.now nodeID r.TwinID },
          [.query queryString]⟩
      | [] => ⟨.error .ErrNodeNotFound, a, [.query queryString]⟩

def fetchNodeData (w : World) (a : App) (nodeID : String) : Out (Except Err NodeInfo) :=
  let r := getNodeTwinID w a nodeID
  let t0 := Event.callFetchNodeData nodeID :: r.trace
  match r.val with
  | .error err => ⟨.error err, r.app, t0⟩
  | .ok twinID =>
    match w.counters twinID with
    | .error e =>
      ⟨.error (.wrap "could not get node capacity" (.ext e)), r.app, t0 ++ [.counters twinID]⟩
    | .ok (NodeCapacity, UsedCapacity) =>
      match w.systemDMI twinID with
      | .error e =>
        ⟨.error (.wrap "could not get node DMI info" (.ext e)), r.app,
          t0 ++ [.counters twinID, .systemDMI twinID]⟩
      | .ok dmi =>
        match w.systemHypervisor twinID with
        | .error e =>
          ⟨.error (.wrap "could not get node hypervisor info" (.ext e)), r.app,
            t0 ++ [.counters twinID, .systemDMI twinID, .systemHypervisor twinID]⟩
        | .ok hypervisor =>
          ⟨.ok ⟨⟨NodeCapacity, UsedCapacity⟩, dmi, hypervisor⟩, r.app,
            t0 ++ [.counters twinID, .systemDMI twinID, .systemHypervisor twinID]⟩

def getNodeData (w : World) (a : App) (nodeID : String) : Out (Except Err String) :=
  let key := nodeKey nodeID
  let value := (GetRedisKey w a key).1
  let t0 := [Event.callGetNodeData nodeID, Event.redisGet key]
  if value = "" then
    let f := fetchNodeData w a nodeID
    match f.val with
    | .error err =>
      if errorsIs err .ErrNodeNotFound then ⟨.error .ErrNodeNotFound, f.app, t0 ++ f.trace⟩
      else ⟨.error .ErrBadGateway, f.app, t0 ++ f.trace⟩
    | .ok nodeInfo =>
      match jsonMarshal w.enc nodeInfo with
      | .error e =>
        ⟨.error (.wrap "internal server error" (.ext e)), f.app,
          t0 ++ f.trace ++ [.log "error" "could not marshal node info"]⟩
      | .ok marshalledInfo =>
        let s := SetRedisKey w f.app key marshalledInfo (30 * 60)
        let warn := match s.1 with
          | some _ => [Event.log "warn" "could not cache data in redis"]
          | none => []
        ⟨.ok marshalledInfo, s.2,
          t0 ++ f.trace ++ [.redisSet key marshalledInfo (30 * 60)] ++ warn⟩
  else ⟨.ok value, a, t0⟩

def getAllNodesIDs (w : World) : Except Err (List Nat) × List Event :=
  match w.query allNodesQuery with
  | .error e => (.error (.wrap "failed to query nodes" (.ext e)), [.query allNodesQuery])
  | .ok recs => (.ok (recs.map (fun r => r.NodeID)), [.query allNodesQuery])

/-- The loop of `cacheNodesInfo`; iteration `i` runs in world `ws i`. -/
def cacheNodesLoop (ws : Nat → World) : Nat → App → List Nat → App × List Event
  | _, a, [] => (a, [])
  | i, a, nid :: rest =>
    let r := getNodeData (ws i) a (fmtSprint nid)
    let failed := match r.val with
      | .error _ => [Event.fetchFailed nid]
      | .ok _ => []
    let k := cacheNodesLoop ws (i + 1) r.app rest
    (k.1, Event.log "debug" (fmtD (i + 1) ++ ":fetching node: " ++ fmtD nid)
      :: (r.trace ++ failed ++ k.2))

def cacheNodesInfo (w0 : World) (ws : Nat → World) (a : App) : App × List Event :=
  let q := getAllNodesIDs w0
  let l := match q.1 with
    | .error _ => ([], [Event.log "error" "failed to query nodes"])
    | .ok ids => (ids, [])
  let k := cacheNodesLoop ws 0 a l.1
  (k.1, q.2 ++ l.2 ++ k.2 ++
    [Event.log "debug" "Fetching nodes completed, next fetch will be in 30 minutes"])

/-! ## server.go: the liveness loop of listNodes -/

/-- Body of the loop of `listNodes` for one node record. -/
def livenessStep (w : World) (a : App) (node : Node) : Node :=
  let g := GetRedisKey w a (nodeKeyD node.NodeID)
  let node := if g.2 ≠ none then { node with State := "down" } else node
  let node := if g.1 ≠ "" then { node with State := "up" } else node
  node

/-- The loop of `listNodes`; iteration `i` runs in world `ws i`. -/
def livenessLoop (ws : Nat → World) (a : App) : Nat → List Node → List Node
  | _, [] => []
  | i, node :: rest => livenessStep (ws i) a node :: livenessLoop ws a (i + 1) rest

/-! ## helpers.go: query parameters -/

/-- Go `strings.Contains`. -/
def stringsContains (s sub : String) : Bool := decide (sub.data <:+: s.data)

/-- Wrap an integer to the range of Go `int` (64 bits, two's complement). -/
def wrapInt (x : Int) : Int := (x + 2 ^ 63) % 2 ^ 64 - 2 ^ 63

/-- Value of a list of decimal digits. -/
def digitsValue (ds : List Char) : Nat :=
  ds.foldl (fun acc c => acc * 10 + (c.toNat - 48)) 0

/-- Go `strconv.Atoi`: an optional sign, then one or more decimal digits, the value
within the range of `int`. -/
def Atoi (s : String) : Except Err Int :=
  let cs := s.data
  let p : Bool × List Char := match cs with
    | '+' :: r => (false, r)
    | '-' :: r => (true, r)
    | _ => (false, cs)
  if p.2 = [] ∨ ¬ p.2.all Char.isDigit then
    .error (.ext "strconv.Atoi: invalid syntax")
  else
    let n := digitsValue p.2
    if p.1 then
      if n > 2 ^ 63 then .error (.ext "strconv.Atoi: value out of range")
      else .ok (- (n : Int))
    else
      if n > 2 ^ 63 - 1 then .error (.ext "strconv.Atoi: value out of range")
      else .ok (n : Int)

/-- The part of `http.Request` the helpers read: the URL as printed and its parsed
query parameters, in order of appearance. -/
structure Request where
  URL : String
  Query : List (String × String)
  deriving DecidableEq, Repr

/-- Go `r.URL.Query().Get(key)`: the first value of the key, or the empty string. -/
def queryGet (r : Request) (key : String) : String :=
  match r.Query.lookup key with
  | some v => v
  | none => ""

/-- The values `handleRequestsQueryParams` stores in the request context. -/
structure Ctx where
  specificFarm : String
  offset : Int
  maxResult : Int
  isGateway : String
  deriving DecidableEq, Repr

def calculateMaxResult (r : Request) : Except Err Int :=
  let maxResultPerpage := queryGet r "max_result"
  let maxResultPerpage := if maxResultPerpage = "" then "50" else maxResultPerpage
  match Atoi maxResultPerpage with
  | .error err => .error (.wrap "invalid page number" err)
  | .ok maxResult => .ok maxResult

def calculateOffset (maxResult : Int) (r : Request) : Except Err Int :=
  let page := queryGet r "page"
  let page := if page = "" then "1" else page
  match Atoi page with
  | .error err => .error (.wrap "invalid page number" err)
  | .ok pageNumber =>
    if pageNumber < 1 then .error (.ext "invalid page number : %!w(<nil>)")
    else .ok (wrapInt ((pageNumber - 1) * maxResult))

def handleRequestsQueryParams (r : Request) : Except Err Ctx :=
  let isGateway :=
    if stringsContains r.URL "gateways" then ",publicConfig: \x7bipv4_contains: \".\"\x7d"
    else ""
  let farmID := queryGet r "farm_id"
  let isSpecificFarm := if farmID ≠ "" then ",farmId_eq:" ++ farmID else ""
  match calculateMaxResult r with
  | .error err => .error err
  | .ok maxResult =>
    match calculateOffset maxResult r with
    | .error err => .error err
    | .ok offset => .ok ⟨isSpecificFarm, offset, maxResult, isGateway⟩

def getOffset (c : Ctx) : Int := c.offset

def getMaxResult (c : Ctx) : Int := c.maxResult

/-- The text `calculateMaxResult` parses. -/
def maxResultText (r : Request) : String :=
  if queryGet r "max_result" = "" then "50" else queryGet r "max_result"

/-- The text `calculateOffset` parses. -/
def pageText (r : Request) : String :=
  if queryGet r "page" = "" then "1" else queryGet r "page"

/-- The value of a parameter, a default standing in when the parameter is absent. -/
def paramOrDefault (r : Request) (key dflt : String) : String :=
  match r.Query.lookup key with
  | some v => v
  | none => dflt

/-! ## Observations on traces -/

def Event.isRedisSet : Event → Bool
  | .redisSet _ _ _ => true
  | _ => false

def Event.isQuery : Event → Bool
  | .query _ => true
  | _ => false

def Event.isFetchCall : Event → Bool
  | .callFetchNodeData _ => true
  | _ => false

def Event.isRemoteCall : Event → Bool
  | .counters _ => true
  | .systemDMI _ => true
  | .systemHypervisor _ => true
  | _ => false

/-- The node id of an entry into `getNodeData`. -/
def Event.getNodeDataArg : Event → Option String
  | .callGetNodeData n => some n
  | _ => none

/-- The error line `cacheNodesInfo` logs for a node whose fetch failed. -/
def Event.isFetchFailure : Event → Bool
  | .fetchFailed _ => true
  | _ => false

/-- The events `fetchNodeData` can produce. -/
def Event.isFetchEvent : Event → Bool
  | .callFetchNodeData _ => true
  | .query _ => true
  | .counters _ => true
  | .systemDMI _ => true
  | .systemHypervisor _ => true
  | _ => false

/-- The store holds a non-empty value under the key, expired or not. -/
def holdsValue (a : App) (key : String) : Prop :=
  ∃ it, a.redis.lookup key = some it ∧ it.value ≠ ""

/-- Every value the store holds is non-empty, as every value `getNodeData` writes is. -/
def valuesNonEmpty (a : App) : Prop :=
  ∀ p ∈ a.redis, p.2.value ≠ ""

/-- No entry of the store has expired at time `t`. -/
def allFresh (a : App) (t : Nat) : Prop :=
  ∀ p ∈ a.redis, t < p.2.expiresAt

/-- Successive calls of `getNodeTwinID` for one node, one call per world of the list:
the state after the last call and the calls made, in order. -/
def resolveRepeatedly (nodeID : String) : List World → App → App × List Event
  | [], a => (a, [])
  | w :: ws, a =>
    let r := getNodeTwinID w a nodeID
    let k := resolveRepeatedly nodeID ws r.app
    (k.1, r.trace ++ k.2)

deriving instance DecidableEq for Except

/-! ## Concrete worlds and states -/

/-- Encoders of the examples. -/
def exEnc : Encoders :=
  ⟨fun c => .ok (Nat.repr c.CRU), fun _ => .ok "null", fun h => .ok ("\"" ++ h ++ "\"")⟩

/-- A world in which every collaborator answers: the directory knows one record. -/
def exWorld : World where
  now := 100
  redisGetErr := none
  redisNilErr := none
  redisSetErr := none
  query := fun _ => .ok [⟨7, 42⟩]
  counters := fun _ => .ok (⟨8, 0, 0, 0, 0⟩, ⟨2, 0, 0, 0, 0⟩)
  systemDMI := fun _ => .ok ⟨[]⟩
  systemHypervisor := fun _ => .ok "kvm"
  enc := exEnc

/-- A world whose directory knows no record. -/
def absentWorld : World := { exWorld with query := fun _ => .ok [] }

/-- A world whose store lookup fails. -/
def readFaultWorld : World := { exWorld with redisGetErr := some "connection refused" }

/-- A world whose store reports a key without value as an error. -/
def nilErrWorld : World := { exWorld with redisNilErr := some "nil returned" }

/-- A world whose store refuses writes. -/
def writeFaultWorld : World := { exWorld with redisSetErr := some "connection refused" }

/-- A world whose node answers the capacity call and fails the DMI call. -/
def dmiFaultWorld : World := { exWorld with systemDMI := fun _ => .error "timeout" }

/-- A request whose page and page size make the offset exceed 64 bits. -/
def overflowRequest : Request :=
  ⟨"/nodes?page=4611686018427387905&max_result=4",
    [("page", "4611686018427387905"), ("max_result", "4")]⟩

/-- The state with both caches empty. -/
def emptyApp : App := ⟨[], []⟩

/-- A state whose durable store holds a value for node 7 until time 1000. -/
def cachedApp : App := ⟨[], [(nodeKey "7", ⟨"cached", 1000⟩)]⟩

/-- A state whose durable store holds the empty string for node 7 until time 1000. -/
def emptyValueApp : App := ⟨[], [(nodeKey "7", ⟨"", 1000⟩)]⟩

/-- The world one minute later, the node reporting other counters. -/
def laterWorld : World :=
  { exWorld with now := 160, counters := fun _ => .ok (⟨8, 0, 0, 0, 0⟩, ⟨5, 0, 0, 0, 0⟩) }


/-! ## getNodeTwinID, case by case -/

theorem getNodeTwinID_hit (w : World) (a : App) (nodeID : String) (t : Nat)
    (h : lruGet a.lruCache w.now nodeID = some t) :
    getNodeTwinID w a nodeID = ⟨.ok t, a, []⟩ := by
  unfold getNodeTwinID
  simp only [h]

theorem getNodeTwinID_queryError (w : World) (a : App) (nodeID e : String)
    (h : lruGet a.lruCache w.now nodeID = none) (hq : w.query (twinQuery nodeID) = .error e) :
    getNodeTwinID w a nodeID =
      ⟨.error (.wrap "failed to query node" (.ext e)), a, [.query (twinQuery nodeID)]⟩ := by
  unfold getNodeTwinID
  simp only [h, hq]

theorem getNodeTwinID_found (w : World) (a : App) (nodeID : String) (r : DirRecord)
    (rs : List DirRecord)
    (h : lruGet a.lruCache w.now nodeID = none) (hq : w.query (twinQuery nodeID) = .ok (r :: rs)) :
    getNodeTwinID w a nodeID =
      ⟨.ok r.TwinID, { a with lruCache := lruSet a.lruCache w.now nodeID r.TwinID },
        [.query (twinQuery nodeID)]⟩ := by
  unfold getNodeTwinID
  simp only [h, hq]

theorem getNodeTwinID_notFound (w : World) (a : App) (nodeID : String)
    (h : lruGet a.lruCache w.now nodeID = none) (hq : w.query (twinQuery nodeID) = .ok []) :
    getNodeTwinID w a nodeID = ⟨.error .ErrNodeNotFound, a, [.query (twinQuery nodeID)]⟩ := by
  unfold getNodeTwinID
  simp only [h, hq]

/-- Whatever the case, `getNodeTwinID` leaves the durable store alone, issues at most
one directory query and nothing else, and fails only with `ErrNodeNotFound` or a
wrapped library error. -/
theorem getNodeTwinID_shape (w : World) (a : App) (nodeID : String) :
    (getNodeTwinID w a nodeID).app.redis = a.redis ∧
      ((getNodeTwinID w a nodeID).trace = [] ∨
        (getNodeTwinID w a nodeID).trace = [.query (twinQuery nodeID)]) ∧
      (∀ err, (getNodeTwinID w a nodeID).val = .error err →
        err = .ErrNodeNotFound ∨ ∃ m e, err = .wrap m (.ext e)) := by
  cases h : lruGet a.lruCache w.now nodeID with
  | some t =>
    rw [getNodeTwinID_hit w a nodeID t h]
    exact ⟨rfl, Or.inl rfl, fun err he => by cases he⟩
  | none =>
    cases hq : w.query (twinQuery nodeID) with
    | error e =>
      rw [getNodeTwinID_queryError w a nodeID e h hq]
      refine ⟨rfl, Or.inr rfl, fun err he => ?_⟩
      cases he
      exact Or.inr ⟨_, _, rfl⟩
    | ok rs =>
      cases rs with
      | nil =>
        rw [getNodeTwinID_notFound w a nodeID h hq]
        refine ⟨rfl, Or.inr rfl, fun err he => ?_⟩
        cases he
        exact Or.inl rfl
      | cons r rs =>
        rw [getNodeTwinID_found w a nodeID r rs h hq]
        exact ⟨rfl, Or.inr rfl, fun err he => by cases he⟩

/-! ## fetchNodeData, case by case -/

theorem fetchNodeData_twinError (w : World) (a : App) (nodeID : String) (err : Err)
    (h : (getNodeTwinID w a nodeID).val = .error err) :
    fetchNodeData w a nodeID =
      ⟨.error err, (getNodeTwinID w a nodeID).app,
        .callFetchNodeData nodeID :: (getNodeTwinID w a nodeID).trace⟩ := by
  unfold fetchNodeData
  simp only [h]

theorem fetchNodeData_countersError (w : World) (a : App) (nodeID : String) (twin : Nat)
    (e : String) (h : (getNodeTwinID w a nodeID).val = .ok twin)
    (h1 : w.counters twin = .error e) :
    fetchNodeData w a nodeID =
      ⟨.error (.wrap "could not get node capacity" (.ext e)), (getNodeTwinID w a nodeID).app,
        (.callFetchNodeData nodeID :: (getNodeTwinID w a nodeID).trace) ++
          [.counters twin]⟩ := by
  unfold fetchNodeData
  simp only [h, h1]

theorem fetchNodeData_dmiError (w : World) (a : App) (nodeID : String) (twin : Nat)
    (c : GridCapacity × GridCapacity) (e : String)
    (h : (getNodeTwinID w a nodeID).val = .ok twin)
    (h1 : w.counters twin = .ok c) (h2 : w.systemDMI twin = .error e) :
    fetchNodeData w a nodeID =
      ⟨.error (.wrap "could not get node DMI info" (.ext e)), (getNodeTwinID w a nodeID).app,
        (.callFetchNodeData nodeID :: (getNodeTwinID w a nodeID).trace) ++
          [.counters twin, .systemDMI twin]⟩ := by
  obtain ⟨c1, c2⟩ := c
  unfold fetchNodeData
  simp only [h, h1, h2]

theorem fetchNodeData_hypervisorError (w : World) (a : App) (nodeID : String) (twin : Nat)
    (c : GridCapacity × GridCapacity) (d : DMI) (e : String)
    (h : (getNodeTwinID w a nodeID).val = .ok twin)
    (h1 : w.counters twin = .ok c) (h2 : w.systemDMI twin = .ok d)
    (h3 : w.systemHypervisor twin = .error e) :
    fetchNodeData w a nodeID =
      ⟨.error (.wrap "could not get node hypervisor info" (.ext e)),
        (getNodeTwinID w a nodeID).app,
        (.callFetchNodeData nodeID :: (getNodeTwinID w a nodeID).trace) ++
          [.counters twin, .systemDMI twin, .systemHypervisor twin]⟩ := by
  obtain ⟨c1, c2⟩ := c
  unfold fetchNodeData
  simp only [h, h1, h2, h3]

theorem fetchNodeData_ok (w : World) (a : App) (nodeID : String) (twin : Nat)
    (c : GridCapacity × GridCapacity) (d : DMI) (hv : String)
    (h : (getNodeTwinID w a nodeID).val = .ok twin)
    (h1 : w.counters twin = .ok c) (h2 : w.systemDMI twin = .ok d)
    (h3 : w.systemHypervisor twin = .ok hv) :
    fetchNodeData w a nodeID =
      ⟨.ok ⟨⟨c.1, c.2⟩, d, hv⟩, (getNodeTwinID w a nodeID).app,
        (.callFetchNodeData nodeID :: (getNodeTwinID w a nodeID).trace) ++
          [.counters twin, .systemDMI twin, .systemHypervisor twin]⟩ := by
  obtain ⟨c1, c2⟩ := c
  unfold fetchNodeData
  simp only [h, h1, h2, h3]

/-- Whatever the case, `fetchNodeData` leaves the durable store alone, makes only
directory and remote calls, and fails only with `ErrNodeNotFound` or a wrapped
library error. -/
theorem fetchNodeData_shape (w : World) (a : App) (nodeID : String) :
    (fetchNodeData w a nodeID).app.redis = a.redis ∧
      (∀ ev ∈ (fetchNodeData w a nodeID).trace, ev.isFetchEvent = true) ∧
      (∀ err, (fetchNodeData w a nodeID).val = .error err →
        err = .ErrNodeNotFound ∨ ∃ m e, err = .wrap m (.ext e)) := by
  obtain ⟨hr, ht, he⟩ := getNodeTwinID_shape w a nodeID
  have htr : ∀ ev ∈ (getNodeTwinID w a nodeID).trace, ev.isFetchEvent = true := by
    intro ev hev
    rcases ht with ht | ht
    · rw [ht] at hev; cases hev
    · rw [ht] at hev
      rw [List.mem_singleton] at hev
      rw [hev]; rfl
  cases h : (getNodeTwinID w a nodeID).val with
  | error err =>
    rw [fetchNodeData_twinError w a nodeID err h]
    refine ⟨hr, ?_, ?_⟩
    · intro ev hev
      rcases List.mem_cons.1 hev with rfl | hev
      · rfl
      · exact htr ev hev
    · intro err2 h2
      cases h2
      exact he err h
  | ok twin =>
    cases h1 : w.counters twin with
    | error e =>
      rw [fetchNodeData_countersError w a nodeID twin e h h1]
      refine ⟨hr, ?_, ?_⟩
      · intro ev hev
        simp only [List.cons_append, List.mem_cons, List.mem_append, List.mem_singleton,
          List.not_mem_nil, or_false] at hev
        rcases hev with rfl | hev | rfl
        · rfl
        · exact htr ev hev
        · rfl
      · intro err2 h2
        cases h2
        exact Or.inr ⟨_, _, rfl⟩
    | ok c =>
      cases h2 : w.systemDMI twin with
      | error e =>
        rw [fetchNodeData_dmiError w a nodeID twin c e h h1 h2]
        refine ⟨hr, ?_, ?_⟩
        · intro ev hev
          simp only [List.cons_append, List.mem_cons, List.mem_append, List.mem_singleton,
            List.not_mem_nil, or_false] at hev
          rcases hev with rfl | hev | rfl | rfl
          · rfl
          · exact htr ev hev
          · rfl
          · rfl
        · intro err2 h2
          cases h2
          exact Or.inr ⟨_, _, rfl⟩
      | ok d =>
        cases h3 : w.systemHypervisor twin with
        | error e =>
          rw [fetchNodeData_hypervisorError w a nodeID twin c d e h h1 h2 h3]
          refine ⟨hr, ?_, ?_⟩
          · intro ev hev
            simp only [List.cons_append, List.mem_cons, List.mem_append, List.mem_singleton,
              List.not_mem_nil, or_false] at hev
            rcases hev with rfl | hev | rfl | rfl | rfl
            · rfl
            · exact htr ev hev
            · rfl
            · rfl
            · rfl
          · intro err2 h2
            cases h2
            exact Or.inr ⟨_, _, rfl⟩
        | ok hv =>
          rw [fetchNodeData_ok w a nodeID twin c d hv h h1 h2 h3]
          refine ⟨hr, ?_, ?_⟩
          · intro ev hev
            simp only [List.cons_append, List.mem_cons, List.mem_append, List.mem_singleton,
              List.not_mem_nil, or_false] at hev
            rcases hev with rfl | hev | rfl | rfl | rfl
            · rfl
            · exact htr ev hev
            · rfl
            · rfl
            · rfl
          · intro err2 h2
            cases h2

/-! ## getNodeData, case by case -/

theorem fetchEvent_not_redisSet (ev : Event) (h : ev.isFetchEvent = true) :
    ev.isRedisSet = false := by
  cases ev <;> first | rfl | cases h

theorem fetchEvent_not_entry (ev : Event) (h : ev.isFetchEvent = true) :
    ev.getNodeDataArg = none := by
  cases ev <;> first | rfl | cases h

theorem fetchEvent_not_failure (ev : Event) (h : ev.isFetchEvent = true) :
    ev.isFetchFailure = false := by
  cases ev <;> first | rfl | cases h

theorem errorsIs_wrap_ext (m e : String) :
    errorsIs (.wrap m (.ext e)) .ErrNodeNotFound = false := by
  simp [errorsIs]

theorem errorsIs_notFound : errorsIs .ErrNodeNotFound .ErrNodeNotFound = true := by
  simp [errorsIs]

theorem getNodeData_hit (w : World) (a : App) (nodeID : String)
    (hv : (GetRedisKey w a (nodeKey nodeID)).1 ≠ "") :
    getNodeData w a nodeID =
      ⟨.ok (GetRedisKey w a (nodeKey nodeID)).1, a,
        [.callGetNodeData nodeID, .redisGet (nodeKey nodeID)]⟩ := by
  unfold getNodeData
  simp only [hv, if_false]

theorem getNodeData_fetchError (w : World) (a : App) (nodeID : String) (err : Err)
    (hv : (GetRedisKey w a (nodeKey nodeID)).1 = "")
    (hf : (fetchNodeData w a nodeID).val = .error err) :
    getNodeData w a nodeID =
      ⟨.error (if errorsIs err .ErrNodeNotFound then .ErrNodeNotFound else .ErrBadGateway),
        (fetchNodeData w a nodeID).app,
        [.callGetNodeData nodeID, .redisGet (nodeKey nodeID)] ++
          (fetchNodeData w a nodeID).trace⟩ := by
  unfold getNodeData
  simp only [hv, if_true, hf]
  split <;> rfl

theorem getNodeData_marshalError (w : World) (a : App) (nodeID : String) (info : NodeInfo)
    (e : String) (hv : (GetRedisKey w a (nodeKey nodeID)).1 = "")
    (hf : (fetchNodeData w a nodeID).val = .ok info)
    (hm : jsonMarshal w.enc info = .error e) :
    getNodeData w a nodeID =
      ⟨.error (.wrap "internal server error" (.ext e)), (fetchNodeData w a nodeID).app,
        [.callGetNodeData nodeID, .redisGet (nodeKey nodeID)] ++
          (fetchNodeData w a nodeID).trace ++
          [.log "error" "could not marshal node info"]⟩ := by
  unfold getNodeData
  simp only [hv, if_true, hf, hm]

theorem getNodeData_fetched (w : World) (a : App) (nodeID : String) (info : NodeInfo)
    (s : String) (hv : (GetRedisKey w a (nodeKey nodeID)).1 = "")
    (hf : (fetchNodeData w a nodeID).val = .ok info)
    (hm : jsonMarshal w.enc info = .ok s) :
    getNodeData w a nodeID =
      ⟨.ok s, (SetRedisKey w (fetchNodeData w a nodeID).app (nodeKey nodeID) s (30 * 60)).2,
        [.callGetNodeData nodeID, .redisGet (nodeKey nodeID)] ++
          (fetchNodeData w a nodeID).trace ++ [.redisSet (nodeKey nodeID) s (30 * 60)] ++
          (match (SetRedisKey w (fetchNodeData w a nodeID).app (nodeKey nodeID) s (30 * 60)).1 with
            | some _ => [Event.log "warn" "could not cache data in redis"]
            | none => [])⟩ := by
  unfold getNodeData
  simp only [hv, if_true, hf, hm]

theorem SetRedisKey_fault (w : World) (a : App) (key value e : String) (ttl : Nat)
    (h : w.redisSetErr = some e) : SetRedisKey w a key value ttl = (some (.ext e), a) := by
  unfold SetRedisKey
  simp only [h]

theorem SetRedisKey_ok (w : World) (a : App) (key value : String) (ttl : Nat)
    (h : w.redisSetErr = none) :
    SetRedisKey w a key value ttl =
      (none, { a with redis := redisPut a.redis key ⟨value, w.now + ttl⟩ }) := by
  unfold SetRedisKey
  simp only [h]

theorem GetRedisKey_live (w : World) (a : App) (key v : String)
    (hg : w.redisGetErr = none) (hl : redisLive a.redis w.now key = some v) :
    GetRedisKey w a key = (v, none) := by
  unfold GetRedisKey
  simp only [hg, hl]

theorem GetRedisKey_fault (w : World) (a : App) (key e : String)
    (hg : w.redisGetErr = some e) : GetRedisKey w a key = ("", some (.ext e)) := by
  unfold GetRedisKey
  simp only [hg]

theorem GetRedisKey_absent (w : World) (a : App) (key : String)
    (hg : w.redisGetErr = none) (hl : redisLive a.redis w.now key = none) :
    GetRedisKey w a key = ("", w.redisNilErr.map Err.ext) := by
  unfold GetRedisKey
  simp only [hg, hl]

/-- Claim C2: on a miss of the durable store with the twin id resolved, a failure of any
of the three remote calls (capacity counters; DMI after capacity; hypervisor after both)
makes `getNodeData` return `ErrBadGateway`, leaves the durable store unchanged and
never calls `SetRedisKey`. -/
theorem C2_remote_failure_bad_gateway (w : World) (a : App) (nodeID : String) (twin : Nat)
    (hmiss : (GetRedisKey w a (nodeKey nodeID)).1 = "")
    (htwin : (getNodeTwinID w a nodeID).val = .ok twin)
    (hfail : (∃ e, w.counters twin = .error e) ∨
      (∃ c e, w.counters twin = .ok c ∧ w.systemDMI twin = .error e) ∨
      (∃ c d e, w.counters twin = .ok c ∧ w.systemDMI twin = .ok d ∧
        w.systemHypervisor twin = .error e)) :
    (getNodeData w a nodeID).val = .error .ErrBadGateway ∧
      (getNodeData w a nodeID).app.redis = a.redis ∧
      (∀ ev ∈ (getNodeData w a nodeID).trace, ev.isRedisSet = false) := by
  obtain ⟨hr, ht, -⟩ := fetchNodeData_shape w a nodeID
  have hf : ∃ m e, (fetchNodeData w a nodeID).val = .error (.wrap m (.ext e)) := by
    rcases hfail with ⟨e, h1⟩ | ⟨c, e, h1, h2⟩ | ⟨c, d, e, h1, h2, h3⟩
    · rw [fetchNodeData_countersError w a nodeID twin e htwin h1]; exact ⟨_, _, rfl⟩
    · rw [fetchNodeData_dmiError w a nodeID twin c e htwin h1 h2]; exact ⟨_, _, rfl⟩
    · rw [fetchNodeData_hypervisorError w a nodeID twin c d e htwin h1 h2 h3]
      exact ⟨_, _, rfl⟩
  obtain ⟨m, e, hf⟩ := hf
  rw [getNodeData_fetchError w a nodeID _ hmiss hf]
  refine ⟨by simp only [errorsIs_wrap_ext]; rfl, hr, ?_⟩
  intro ev hev
  simp only [List.cons_append, List.nil_append, List.mem_cons] at hev
  rcases hev with rfl | rfl | hev
  · rfl
  · rfl
  · exact fetchEvent_not_redisSet ev (ht ev hev)

/-- Claim C3: when the directory query of `getNodeTwinID` succeeds with zero matching
records, `getNodeTwinID` returns `ErrNodeNotFound` and leaves the twin cache as it was;
`getNodeData`, on a miss of the durable store, then returns `ErrNodeNotFound` (not
`ErrBadGateway`), leaves both caches as they were and never calls `SetRedisKey`. -/
theorem C3_absent_node_not_found (w : World) (a : App) (nodeID : String)
    (hlru : lruGet a.lruCache w.now nodeID = none)
    (hq : w.query (twinQuery nodeID) = .ok []) :
    (getNodeTwinID w a nodeID).val = .error .ErrNodeNotFound ∧
      (getNodeTwinID w a nodeID).app = a ∧
      (getNodeTwinID w a nodeID).trace = [.query (twinQuery nodeID)] ∧
      ((GetRedisKey w a (nodeKey nodeID)).1 = "" →
        (getNodeData w a nodeID).val = .error .ErrNodeNotFound ∧
        (getNodeData w a nodeID).val ≠ .error .ErrBadGateway ∧
        (getNodeData w a nodeID).app = a ∧
        (∀ ev ∈ (getNodeData w a nodeID).trace, ev.isRedisSet = false)) := by
  have ht := getNodeTwinID_notFound w a nodeID hlru hq
  refine ⟨by rw [ht], by rw [ht], by rw [ht], ?_⟩
  intro hmiss
  have hf := fetchNodeData_twinError w a nodeID .ErrNodeNotFound (by rw [ht])
  have hg := getNodeData_fetchError w a nodeID .ErrNodeNotFound hmiss (by rw [hf])
  rw [hg]
  simp only [errorsIs_notFound, if_true]
  refine ⟨trivial, ?_, by rw [hf, ht], ?_⟩
  · intro h; cases h
  · intro ev hev
    simp only [List.cons_append, List.nil_append, List.mem_cons] at hev
    rcases hev with rfl | rfl | hev
    · rfl
    · rfl
    · exact fetchEvent_not_redisSet ev ((fetchNodeData_shape w a nodeID).2.1 ev hev)

/-- Claim C8: on a miss of the durable store with a successful `fetchNodeData`, when the
write to the store fails `getNodeData` still returns the JSON serialisation of the
fetched `NodeInfo` with no error, and `SetRedisKey` was attempted exactly once. -/
theorem C8_write_failure_swallowed (w : World) (a : App) (nodeID : String)
    (info : NodeInfo) (s e : String)
    (hmiss : (GetRedisKey w a (nodeKey nodeID)).1 = "")
    (hfetch : (fetchNodeData w a nodeID).val = .ok info)
    (hjson : jsonMarshal w.enc info = .ok s)
    (hset : w.redisSetErr = some e) :
    (getNodeData w a nodeID).val = .ok s ∧
      ((getNodeData w a nodeID).trace.filter Event.isRedisSet) =
        [.redisSet (nodeKey nodeID) s (30 * 60)] ∧
      (getNodeData w a nodeID).app.redis = a.redis := by
  obtain ⟨hr, ht, -⟩ := fetchNodeData_shape w a nodeID
  rw [getNodeData_fetched w a nodeID info s hmiss hfetch hjson]
  rw [SetRedisKey_fault w _ _ _ e _ hset]
  refine ⟨rfl, ?_, hr⟩
  simp only [List.filter_append, List.filter_cons, List.filter_nil, Event.isRedisSet]
  simp
  intro ev hev
  rw [fetchEvent_not_redisSet ev (ht ev hev)]

theorem jsonMarshal_ne_empty (enc : Encoders) (n : NodeInfo) (s : String)
    (h : jsonMarshal enc n = .ok s) : s ≠ "" := by
  unfold jsonMarshal at h
  split at h
  · cases h
  · split at h
    · cases h
    · split at h
      · cases h
      · split at h
        · cases h
        · cases h
          intro h0
          have := congrArg String.length h0
          simp only [String.length_append] at this
          have h1 : ("\x7b\"capacity\":\x7b\"total\":" : String).length = 21 := by decide
          rw [h1] at this
          have h2 : ("" : String).length = 0 := rfl
          rw [h2] at this
          omega

/-! ## The durable store -/

theorem lookup_filter_ne {β : Type} (l : List (String × β)) (k k2 : String) (h : k2 ≠ k) :
    (l.filter (fun p => p.1 ≠ k)).lookup k2 = l.lookup k2 := by
  induction l with
  | nil => rfl
  | cons p l ih =>
    obtain ⟨pk, pv⟩ := p
    by_cases hp : pk = k
    · subst hp
      have hne : (k2 == pk) = false := by simpa using h
      simp only [List.filter_cons, List.lookup_cons, hne, ne_eq, not_true_eq_false,
        decide_False, Bool.false_eq_true, if_false]
      exact ih
    · by_cases h2 : k2 = pk
      · subst h2
        simp [List.filter_cons, List.lookup_cons, hp]
      · have hne : (k2 == pk) = false := by simpa using h2
        simp only [List.filter_cons, List.lookup_cons, hne, ne_eq, hp, not_false_eq_true,
          decide_True, if_true]
        exact ih

theorem redisLive_put_same (r : List (String × RedisItem)) (k v : String) (e now : Nat) :
    redisLive (redisPut r k ⟨v, e⟩) now k = if now < e then some v else none := by
  simp [redisLive, redisPut, List.lookup_cons]

theorem redisLive_put_other (r : List (String × RedisItem)) (k k2 : String) (it : RedisItem)
    (now : Nat) (h : k2 ≠ k) : redisLive (redisPut r k it) now k2 = redisLive r now k2 := by
  have hne : (k2 == k) = false := by simpa using h
  simp only [redisLive, redisPut, List.lookup_cons, hne]
  rw [lookup_filter_ne r k k2 h]

/-- After a call of `getNodeData` that missed the store and returned a value, with a
store write that does not fail, the store holds that value, which is not empty, under
the key of the node for the next 30 minutes. -/
theorem getNodeData_miss_stored (w : World) (a : App) (nodeID v : String)
    (hv : (GetRedisKey w a (nodeKey nodeID)).1 = "")
    (hok : (getNodeData w a nodeID).val = .ok v) (hset : w.redisSetErr = none)
    (t : Nat) (ht : t < w.now + 30 * 60) :
    redisLive (getNodeData w a nodeID).app.redis t (nodeKey nodeID) = some v ∧ v ≠ "" := by
  cases hf : (fetchNodeData w a nodeID).val with
  | error err =>
    rw [getNodeData_fetchError w a nodeID err hv hf] at hok
    cases hok
  | ok info =>
    cases hm : jsonMarshal w.enc info with
    | error e =>
      rw [getNodeData_marshalError w a nodeID info e hv hf hm] at hok
      cases hok
    | ok s =>
      rw [getNodeData_fetched w a nodeID info s hv hf hm] at hok ⊢
      cases hok
      rw [SetRedisKey_ok w _ _ _ _ hset]
      refine ⟨?_, jsonMarshal_ne_empty _ _ _ hm⟩
      simp only [redisLive_put_same]
      rw [if_pos ht]

/-- After a call of `getNodeData` that returned a value, with a store write that does
not fail, the store holds that value under the key of the node, and the value is not
empty. -/
theorem getNodeData_ok_stored (w : World) (a : App) (nodeID v : String)
    (hok : (getNodeData w a nodeID).val = .ok v) (hset : w.redisSetErr = none) :
    redisLive (getNodeData w a nodeID).app.redis w.now (nodeKey nodeID) = some v ∧ v ≠ "" := by
  by_cases hv : (GetRedisKey w a (nodeKey nodeID)).1 = ""
  · exact getNodeData_miss_stored w a nodeID v hv hok hset w.now (by omega)
  · rw [getNodeData_hit w a nodeID hv] at hok ⊢
    cases hok
    refine ⟨?_, hv⟩
    unfold GetRedisKey at hv ⊢
    cases hg : w.redisGetErr with
    | some e => simp [hg] at hv
    | none =>
      cases hl : redisLive a.redis w.now (nodeKey nodeID) with
      | none => simp [hg, hl] at hv
      | some v => simp

theorem getNodeData_live_hit (w : World) (a : App) (nodeID v : String)
    (hg : w.redisGetErr = none)
    (hl : redisLive a.redis w.now (nodeKey nodeID) = some v) (hv : v ≠ "") :
    (getNodeData w a nodeID).val = .ok v ∧ (getNodeData w a nodeID).app = a ∧
      (getNodeData w a nodeID).trace =
        [.callGetNodeData nodeID, .redisGet (nodeKey nodeID)] := by
  have h1 := GetRedisKey_live w a _ v hg hl
  have h2 : (GetRedisKey w a (nodeKey nodeID)).1 ≠ "" := by rw [h1]; exact hv
  rw [getNodeData_hit w a nodeID h2, h1]
  exact ⟨rfl, rfl, rfl⟩

/-- What the body of the liveness loop assigns, by the result of the lookup. -/
theorem livenessStep_cases (w : World) (a : App) (node : Node) :
    ((GetRedisKey w a (nodeKeyD node.NodeID)).1 ≠ "" →
        livenessStep w a node = { node with State := "up" }) ∧
      ((GetRedisKey w a (nodeKeyD node.NodeID)).1 = "" →
        (GetRedisKey w a (nodeKeyD node.NodeID)).2 ≠ none →
        livenessStep w a node = { node with State := "down" }) ∧
      ((GetRedisKey w a (nodeKeyD node.NodeID)).1 = "" →
        (GetRedisKey w a (nodeKeyD node.NodeID)).2 = none →
        livenessStep w a node = node) := by
  unfold livenessStep
  refine ⟨?_, ?_, ?_⟩
  · intro h
    by_cases h2 : (GetRedisKey w a (nodeKeyD node.NodeID)).2 = none <;> simp [h, h2]
  · intro h h2
    simp [h, h2]
  · intro h h2
    simp [h, h2]

theorem livenessStep_up (w : World) (a : App) (node : Node)
    (h : (GetRedisKey w a (nodeKeyD node.NodeID)).1 ≠ "") :
    (livenessStep w a node).State = "up" := by
  unfold livenessStep
  simp only [h, ne_eq, not_false_eq_true, if_true]

/-! ## Claims C1, C4, C6, C9 -/

/-- Claim C1, as stated, fails: in a state whose store holds the value `cached` for node 7,
a lookup that fails makes `getNodeData` fetch from the node, return the fetched data
and write it to the store; and a store holding the empty string under the key is
treated as a miss. -/
theorem C1_lookup_failure_refetches :
    redisLive cachedApp.redis 100 (nodeKey "7") = some "cached" ∧
      (getNodeData readFaultWorld cachedApp "7").val ≠ .ok "cached" ∧
      ((getNodeData readFaultWorld cachedApp "7").trace.filter Event.isFetchCall).length = 1 ∧
      ((getNodeData readFaultWorld cachedApp "7").trace.filter Event.isRedisSet).length = 1 ∧
      redisLive emptyValueApp.redis 100 (nodeKey "7") = some "" ∧
      (getNodeData exWorld emptyValueApp "7").val ≠ .ok "" := by
  decide

/-- Claim C1, amended: when the store holds a non-empty value `v` under `GRID3NODE:N`
and the lookup does not fail, `getNodeData N` returns exactly `v` with no error, leaves
the state as it was, and its only calls are its own entry and the store lookup: no
`fetchNodeData`, no directory query, no remote call, no store write. -/
theorem C1_store_hit_returns_value (w : World) (a : App) (nodeID v : String)
    (hg : w.redisGetErr = none)
    (hl : redisLive a.redis w.now (nodeKey nodeID) = some v) (hv : v ≠ "") :
    (getNodeData w a nodeID).val = .ok v ∧ (getNodeData w a nodeID).app = a ∧
      (getNodeData w a nodeID).trace =
        [.callGetNodeData nodeID, .redisGet (nodeKey nodeID)] ∧
      ((getNodeData w a nodeID).trace.filter Event.isFetchCall).length = 0 ∧
      ((getNodeData w a nodeID).trace.filter Event.isQuery).length = 0 ∧
      ((getNodeData w a nodeID).trace.filter Event.isRemoteCall).length = 0 ∧
      ((getNodeData w a nodeID).trace.filter Event.isRedisSet).length = 0 := by
  have h1 := GetRedisKey_live w a _ v hg hl
  have h2 : (GetRedisKey w a (nodeKey nodeID)).1 ≠ "" := by rw [h1]; exact hv
  rw [getNodeData_hit w a nodeID h2, h1]
  exact ⟨rfl, rfl, rfl, rfl, rfl, rfl, rfl⟩

/-- A hit in the example state. -/
theorem C1_store_hit_witness :
    (getNodeData exWorld cachedApp "7").val = .ok "cached" ∧
      (getNodeData exWorld cachedApp "7").app = cachedApp :=
  ⟨(C1_store_hit_returns_value exWorld cachedApp "7" "cached" (by decide) (by decide)
      (by decide)).1,
    (C1_store_hit_returns_value exWorld cachedApp "7" "cached" (by decide) (by decide)
      (by decide)).2.1⟩

/-- Claim C6, as stated, fails: when the store write of the first call fails, the second
call, made one minute later, fetches again and returns what the node reports then. -/
theorem C6_failed_write_refetches :
    (GetRedisKey writeFaultWorld emptyApp (nodeKey "7")).1 = "" ∧
      (fetchNodeData writeFaultWorld emptyApp "7").val =
        .ok ⟨⟨⟨8, 0, 0, 0, 0⟩, ⟨2, 0, 0, 0, 0⟩⟩, ⟨[]⟩, "kvm"⟩ ∧
      laterWorld.now < writeFaultWorld.now + 30 * 60 ∧
      (getNodeData laterWorld (getNodeData writeFaultWorld emptyApp "7").app "7").val ≠
        (getNodeData writeFaultWorld emptyApp "7").val := by
  decide

/-- Claim C6, amended: after a `getNodeData N` that missed the store, fetched successfully
and whose store write succeeded, a second `getNodeData N` within the 30-minute TTL whose
lookup does not fail returns the very string of the first call, whatever the remote node
would answer then, and does not fetch. -/
theorem C6_second_call_identical (w1 w2 : World) (a : App) (nodeID s : String)
    (hmiss : (GetRedisKey w1 a (nodeKey nodeID)).1 = "")
    (hfirst : (getNodeData w1 a nodeID).val = .ok s)
    (hset : w1.redisSetErr = none)
    (hget : w2.redisGetErr = none)
    (httl : w2.now < w1.now + 30 * 60) :
    (getNodeData w2 (getNodeData w1 a nodeID).app nodeID).val = .ok s ∧
      (getNodeData w2 (getNodeData w1 a nodeID).app nodeID).app =
        (getNodeData w1 a nodeID).app ∧
      (getNodeData w2 (getNodeData w1 a nodeID).app nodeID).trace =
        [.callGetNodeData nodeID, .redisGet (nodeKey nodeID)] := by
  obtain ⟨hl, hne⟩ := getNodeData_miss_stored w1 a nodeID s hmiss hfirst hset w2.now httl
  have h := getNodeData_live_hit w2 (getNodeData w1 a nodeID).app nodeID s hget hl hne
  exact h

/-- Two calls one minute apart, the node reporting other counters at the second. -/
theorem C6_second_call_witness :
    (getNodeData laterWorld (getNodeData exWorld emptyApp "7").app "7").val =
      (getNodeData exWorld emptyApp "7").val :=
  (C6_second_call_identical exWorld laterWorld emptyApp "7"
    "\x7b\"capacity\":\x7b\"total\":8,\"used\":2\x7d,\"dmi\":null,\"hypervisor\":\"kvm\"\x7d"
    (by decide) (by decide) (by decide) (by decide) (by decide)).1.trans (by decide)

/-- Claim C9, as stated, fails: when the store write of the warm fails, `getNodeData`
returns no error for node 7, so the warm counts as successful and logs no failure, yet
the liveness loop run right afterwards does not report `up`. -/
theorem C9_failed_write_not_up :
    (getNodeData writeFaultWorld emptyApp (fmtSprint 7)).val =
      .ok "\x7b\"capacity\":\x7b\"total\":8,\"used\":2\x7d,\"dmi\":null,\"hypervisor\":\"kvm\"\x7d" ∧
      Event.fetchFailed 7 ∉ (cacheNodesInfo exWorld (fun _ => writeFaultWorld) emptyApp).2 ∧
      livenessLoop (fun _ => exWorld)
        (cacheNodesInfo exWorld (fun _ => writeFaultWorld) emptyApp).1 0
        [⟨7, 1, 42, ""⟩] = [⟨7, 1, 42, ""⟩] := by
  decide


/-! ## Decimal rendering is injective -/

theorem digitChar_value (k : Nat) (h : k < 10) : (Nat.digitChar k).toNat - 48 = k := by
  interval_cases k <;> rfl

theorem foldl_toDigitsCore (fuel : Nat) :
    ∀ (n : Nat) (ds : List Char), n < fuel →
      (Nat.toDigitsCore 10 fuel n ds).foldl (fun acc c => acc * 10 + (c.toNat - 48)) 0 =
        ds.foldl (fun acc c => acc * 10 + (c.toNat - 48)) n := by
  induction fuel with
  | zero => intro n ds h; omega
  | succ fuel ih =>
    intro n ds h
    unfold Nat.toDigitsCore
    by_cases h0 : n / 10 = 0
    · simp only [h0, if_true, List.foldl_cons, Nat.zero_mul, Nat.zero_add]
      rw [digitChar_value _ (Nat.mod_lt _ (by omega))]
      have : n % 10 = n := by omega
      rw [this]
    · simp only [h0, if_false]
      rw [ih (n / 10) _ (by omega)]
      simp only [List.foldl_cons]
      rw [digitChar_value _ (Nat.mod_lt _ (by omega))]
      have : n / 10 * 10 + n % 10 = n := by omega
      rw [this]

theorem digitsValue_repr (n : Nat) : digitsValue (Nat.repr n).data = n := by
  unfold digitsValue Nat.repr Nat.toDigits
  simp only [List.asString]
  rw [foldl_toDigitsCore (n + 1) n [] (by omega)]
  rfl

theorem fmtSprint_injective (n m : Nat) (h : fmtSprint n = fmtSprint m) : n = m := by
  unfold fmtSprint at h
  rw [← digitsValue_repr n, ← digitsValue_repr m, h]

theorem nodeKey_injective (s t : String) (h : nodeKey s = nodeKey t) : s = t := by
  unfold nodeKey at h
  have := congrArg String.data h
  simp only [String.data_append] at this
  exact String.ext (List.append_cancel_left this)

/-! ## Repeated resolution -/

theorem lruGet_set_same (c : List (String × CacheItem)) (now t v : Nat) (k : String)
    (h : t ≤ now + defaultExpiration) : lruGet (lruSet c now k v) t k = some v := by
  simp only [lruGet, lruSet, List.lookup_cons, beq_self_eq_true]
  rw [if_neg (by omega)]

theorem resolveRepeatedly_hits (nodeID : String) (ws : List World) (a : App)
    (h : ∀ w ∈ ws, ∃ v, lruGet a.lruCache w.now nodeID = some v) :
    resolveRepeatedly nodeID ws a = (a, []) := by
  induction ws with
  | nil => rfl
  | cons w ws ih =>
    obtain ⟨v, hv⟩ := h w (List.mem_cons_self _ _)
    simp only [resolveRepeatedly, getNodeTwinID_hit w a nodeID v hv]
    rw [ih (fun w2 hw2 => h w2 (List.mem_cons_of_mem _ hw2))]
    rfl

theorem resolveRepeatedly_queries (nodeID : String) (t0 : Nat) (ws : List World) :
    ∀ a : App, (∀ w ∈ ws, t0 ≤ w.now ∧ w.now ≤ t0 + defaultExpiration) →
      (∀ w ∈ ws, ∃ r rs, w.query (twinQuery nodeID) = .ok (r :: rs)) →
      ((resolveRepeatedly nodeID ws a).2.filter Event.isQuery).length ≤ 1 := by
  induction ws with
  | nil => intro a _ _; simp [resolveRepeatedly]
  | cons w ws ih =>
    intro a ht hq
    have ht2 : ∀ w2 ∈ ws, t0 ≤ w2.now ∧ w2.now ≤ t0 + defaultExpiration :=
      fun w2 hw2 => ht w2 (List.mem_cons_of_mem _ hw2)
    have hq2 : ∀ w2 ∈ ws, ∃ r rs, w2.query (twinQuery nodeID) = .ok (r :: rs) :=
      fun w2 hw2 => hq w2 (List.mem_cons_of_mem _ hw2)
    cases hl : lruGet a.lruCache w.now nodeID with
    | some v =>
      simp only [resolveRepeatedly, getNodeTwinID_hit w a nodeID v hl, List.nil_append]
      exact ih a ht2 hq2
    | none =>
      obtain ⟨r, rs, hr⟩ := hq w (List.mem_cons_self _ _)
      simp only [resolveRepeatedly, getNodeTwinID_found w a nodeID r rs hl hr]
      rw [resolveRepeatedly_hits nodeID ws _ (fun w2 hw2 => ⟨r.TwinID, by
        apply lruGet_set_same
        have h1 := ht w (List.mem_cons_self _ _)
        have h2 := ht2 w2 hw2
        omega⟩)]
      simp [Event.isQuery]

/-- Claim C7, as stated, fails: for a node the directory does not know, nothing is cached,
and two calls at the same instant issue two directory queries. -/
theorem C7_absent_node_queried_twice :
    ((resolveRepeatedly "7" [absentWorld, absentWorld] emptyApp).2.filter
      Event.isQuery).length = 2 := by
  decide

/-- Claim C7, amended: for every node id `N` and every number of `getNodeTwinID N` calls
made within one window of 10 minutes, if the directory answers each query it receives
with at least one record, at most one directory query is issued in total. -/
theorem C7_at_most_one_query (nodeID : String) (t0 : Nat) (ws : List World) (a : App)
    (hwin : ∀ w ∈ ws, t0 ≤ w.now ∧ w.now ≤ t0 + defaultExpiration)
    (hdir : ∀ w ∈ ws, ∃ r rs, w.query (twinQuery nodeID) = .ok (r :: rs)) :
    ((resolveRepeatedly nodeID ws a).2.filter Event.isQuery).length ≤ 1 :=
  resolveRepeatedly_queries nodeID t0 ws a hwin hdir

/-- Three calls within one window, the cache empty at first. -/
theorem C7_at_most_one_query_witness :
    ((resolveRepeatedly "7" [exWorld, laterWorld, exWorld] emptyApp).2.filter
      Event.isQuery).length ≤ 1 :=
  C7_at_most_one_query "7" 100 [exWorld, laterWorld, exWorld] emptyApp (by decide)
    (by
      intro w hw
      simp only [List.mem_cons, List.mem_singleton, List.not_mem_nil, or_false] at hw
      rcases hw with rfl | rfl | rfl <;> exact ⟨⟨7, 42⟩, [], rfl⟩)

/-! ## The warming sweep -/

theorem filterMap_fetchEvents (l : List Event) (h : ∀ ev ∈ l, ev.isFetchEvent = true) :
    l.filterMap Event.getNodeDataArg = [] := by
  induction l with
  | nil => rfl
  | cons e l ih =>
    rw [List.filterMap_cons, fetchEvent_not_entry e (h e (List.mem_cons_self _ _))]
    exact ih (fun ev hev => h ev (List.mem_cons_of_mem _ hev))

theorem filter_failure_fetchEvents (l : List Event) (h : ∀ ev ∈ l, ev.isFetchEvent = true) :
    l.filter Event.isFetchFailure = [] := by
  induction l with
  | nil => rfl
  | cons e l ih =>
    rw [List.filter_cons, fetchEvent_not_failure e (h e (List.mem_cons_self _ _))]
    exact ih (fun ev hev => h ev (List.mem_cons_of_mem _ hev))

/-- The trace of `getNodeData` holds its own entry once, and no failure line of the
sweep. -/
theorem getNodeData_trace (w : World) (a : App) (nodeID : String) :
    (getNodeData w a nodeID).trace.filterMap Event.getNodeDataArg = [nodeID] ∧
      (getNodeData w a nodeID).trace.filter Event.isFetchFailure = [] := by
  have hf := (fetchNodeData_shape w a nodeID).2.1
  have h1 := filterMap_fetchEvents _ hf
  have h2 := filter_failure_fetchEvents _ hf
  by_cases hv : (GetRedisKey w a (nodeKey nodeID)).1 = ""
  · cases hfe : (fetchNodeData w a nodeID).val with
    | error err =>
      rw [getNodeData_fetchError w a nodeID err hv hfe]
      simp [List.filterMap_append, List.filter_append, h1, h2, Event.getNodeDataArg,
        Event.isFetchFailure]
    | ok info =>
      cases hm : jsonMarshal w.enc info with
      | error e =>
        rw [getNodeData_marshalError w a nodeID info e hv hfe hm]
        simp [List.filterMap_append, List.filter_append, h1, h2, Event.getNodeDataArg,
          Event.isFetchFailure]
      | ok s =>
        rw [getNodeData_fetched w a nodeID info s hv hfe hm]
        cases (SetRedisKey w (fetchNodeData w a nodeID).app (nodeKey nodeID) s (30 * 60)).1 <;>
          simp [List.filterMap_append, List.filter_append, h1, h2, Event.getNodeDataArg,
            Event.isFetchFailure]
  · rw [getNodeData_hit w a nodeID hv]
    simp [Event.getNodeDataArg, Event.isFetchFailure]

/-- The sweep enters `getNodeData` once for each identifier, in the order of the list. -/
theorem cacheNodesLoop_calls (ws : Nat → World) (ids : List Nat) :
    ∀ (i : Nat) (a : App),
      (cacheNodesLoop ws i a ids).2.filterMap Event.getNodeDataArg = ids.map fmtSprint := by
  induction ids with
  | nil => intro i a; rfl
  | cons nid rest ih =>
    intro i a
    simp only [cacheNodesLoop, List.filterMap_cons, List.filterMap_append, List.map_cons,
      Event.getNodeDataArg, (getNodeData_trace (ws i) a (fmtSprint nid)).1, ih]
    cases (getNodeData (ws i) a (fmtSprint nid)).val <;> simp [Event.getNodeDataArg]

/-- One step of the sweep on a key the store does not know, the write not failing:
either the call fails and the store is as before, or it succeeds and the store gains
the entry of the key. -/
theorem getNodeData_step (w : World) (a : App) (nodeID : String)
    (hkey : nodeKey nodeID ∉ a.redis.map Prod.fst) (hset : w.redisSetErr = none) :
    ((∃ err, (getNodeData w a nodeID).val = .error err) ∧
        (getNodeData w a nodeID).app.redis = a.redis) ∨
      ((∃ s, (getNodeData w a nodeID).val = .ok s ∧
        (getNodeData w a nodeID).app.redis =
          (nodeKey nodeID, ⟨s, w.now + 30 * 60⟩) :: a.redis)) := by
  have hlook : a.redis.lookup (nodeKey nodeID) = none := by
    rw [List.lookup_eq_none_iff]
    intro p hp
    rw [bne_iff_ne]
    intro hpk
    exact hkey (List.mem_map.2 ⟨p, hp, hpk.symm⟩)
  have hlive : redisLive a.redis w.now (nodeKey nodeID) = none := by
    simp only [redisLive, hlook]
  have hv : (GetRedisKey w a (nodeKey nodeID)).1 = "" := by
    unfold GetRedisKey
    cases w.redisGetErr <;> simp [hlive]
  have hr := (fetchNodeData_shape w a nodeID).1
  cases hfe : (fetchNodeData w a nodeID).val with
  | error err =>
    rw [getNodeData_fetchError w a nodeID err hv hfe]
    exact Or.inl ⟨⟨_, rfl⟩, hr⟩
  | ok info =>
    cases hm : jsonMarshal w.enc info with
    | error e =>
      rw [getNodeData_marshalError w a nodeID info e hv hfe hm]
      exact Or.inl ⟨⟨_, rfl⟩, hr⟩
    | ok s =>
      rw [getNodeData_fetched w a nodeID info s hv hfe hm, SetRedisKey_ok w _ _ _ _ hset]
      refine Or.inr ⟨s, rfl, ?_⟩
      simp only [redisPut, hr]
      congr 1
      rw [List.filter_eq_self]
      intro p hp
      have hne : p.1 ≠ nodeKey nodeID := fun hpk => hkey (List.mem_map.2 ⟨p, hp, hpk⟩)
      simp [hne]

theorem cacheNodesLoop_store (ws : Nat → World) (t : Nat) (ids : List Nat) :
    ∀ (i : Nat) (a : App),
      (∀ n ∈ ids, nodeKey (fmtSprint n) ∉ a.redis.map Prod.fst) → ids.Nodup →
      (∀ j, j < ids.length → (ws (i + j)).redisSetErr = none ∧
        t < (ws (i + j)).now + 30 * 60) →
      (redisKeys (cacheNodesLoop ws i a ids).1.redis t).length +
          ((cacheNodesLoop ws i a ids).2.filter Event.isFetchFailure).length =
        (redisKeys a.redis t).length + ids.length := by
  induction ids with
  | nil => intro i a _ _ _; simp [cacheNodesLoop]
  | cons nid rest ih =>
    intro i a hkeys hnd hws
    have h0 := hws 0 (by simp)
    rw [Nat.add_zero] at h0
    have hrest : ∀ j, j < rest.length → (ws (i + 1 + j)).redisSetErr = none ∧
        t < (ws (i + 1 + j)).now + 30 * 60 := by
      intro j hj
      have := hws (j + 1) (by simp; omega)
      rw [show i + (j + 1) = i + 1 + j by omega] at this
      exact this
    have hnd2 := (List.nodup_cons.1 hnd)
    have htr := (getNodeData_trace (ws i) a (fmtSprint nid)).2
    have hcount : ((cacheNodesLoop ws i a (nid :: rest)).2.filter Event.isFetchFailure).length =
        (match (getNodeData (ws i) a (fmtSprint nid)).val with
          | .error _ => 1
          | .ok _ => 0) +
        ((cacheNodesLoop ws (i + 1) (getNodeData (ws i) a (fmtSprint nid)).app rest).2.filter
          Event.isFetchFailure).length := by
      simp only [cacheNodesLoop, List.filter_cons, List.filter_append, htr,
        Event.isFetchFailure, List.nil_append]
      cases (getNodeData (ws i) a (fmtSprint nid)).val <;>
        simp [Event.isFetchFailure, Nat.add_comm]
    have hfinal : (cacheNodesLoop ws i a (nid :: rest)).1 =
        (cacheNodesLoop ws (i + 1) (getNodeData (ws i) a (fmtSprint nid)).app rest).1 := by
      simp only [cacheNodesLoop]
    rw [hcount, hfinal]
    rcases getNodeData_step (ws i) a (fmtSprint nid)
      (hkeys nid (List.mem_cons_self _ _)) h0.1 with ⟨⟨err, he⟩, hst⟩ | ⟨s, hs, hst⟩
    · have hk2 : ∀ n ∈ rest, nodeKey (fmtSprint n) ∉
          (getNodeData (ws i) a (fmtSprint nid)).app.redis.map Prod.fst := by
        intro n hn
        rw [hst]
        exact hkeys n (List.mem_cons_of_mem _ hn)
      have := ih (i + 1) _ hk2 hnd2.2 hrest
      rw [hst] at this
      rw [he]
      simp only [List.length_cons]
      omega
    · have hk2 : ∀ n ∈ rest, nodeKey (fmtSprint n) ∉
          (getNodeData (ws i) a (fmtSprint nid)).app.redis.map Prod.fst := by
        intro n hn
        rw [hst]
        simp only [List.map_cons, List.mem_cons, not_or]
        refine ⟨?_, hkeys n (List.mem_cons_of_mem _ hn)⟩
        intro heq
        have := fmtSprint_injective _ _ (nodeKey_injective _ _ heq)
        subst this
        exact hnd2.1 hn
      have := ih (i + 1) _ hk2 hnd2.2 hrest
      rw [hst] at this
      rw [hs]
      have hlen : (redisKeys ((nodeKey (fmtSprint nid), ⟨s, (ws i).now + 30 * 60⟩) :: a.redis)
          t).length = (redisKeys a.redis t).length + 1 := by
        simp [redisKeys, List.filter_cons, h0.2]
      rw [hlen] at this
      simp only [List.length_cons]
      omega

theorem getAllNodesIDs_ok (w : World) (recs : List DirRecord)
    (hq : w.query allNodesQuery = .ok recs) :
    getAllNodesIDs w = (.ok (recs.map (fun r => r.NodeID)), [.query allNodesQuery]) := by
  unfold getAllNodesIDs
  simp only [hq]

theorem cacheNodesInfo_ok (w0 : World) (ws : Nat → World) (a : App) (recs : List DirRecord)
    (hq : w0.query allNodesQuery = .ok recs) :
    cacheNodesInfo w0 ws a =
      ((cacheNodesLoop ws 0 a (recs.map (fun r => r.NodeID))).1,
        [.query allNodesQuery] ++ [] ++
          (cacheNodesLoop ws 0 a (recs.map (fun r => r.NodeID))).2 ++
          [Event.log "debug" "Fetching nodes completed, next fetch will be in 30 minutes"]) := by
  unfold cacheNodesInfo
  simp only [getAllNodesIDs_ok w0 recs hq]

/-- Claim C5, as stated, fails: with one identifier enumerated and no fetch failing
(K = 1, M = 0), a store write that fails is swallowed and no entry exists afterwards. -/
theorem C5_failed_write_leaves_no_entry :
    exWorld.query allNodesQuery = .ok [⟨7, 42⟩] ∧
      (cacheNodesInfo exWorld (fun _ => writeFaultWorld) emptyApp).2.filterMap
        Event.getNodeDataArg = ["7"] ∧
      ((cacheNodesInfo exWorld (fun _ => writeFaultWorld) emptyApp).2.filter
        Event.isFetchFailure).length = 0 ∧
      (redisKeys (cacheNodesInfo exWorld (fun _ => writeFaultWorld) emptyApp).1.redis
        100).length ≠ 1 - 0 := by
  decide

/-- Claim C5, amended: for every list of K identifiers enumerated from the directory,
`cacheNodesInfo` (a total function) enters `getNodeData` exactly once for each
identifier, in the order of the list, whatever fails on the way; and when the store is
empty beforehand, the identifiers are pairwise distinct, no store write fails and no
entry written by the sweep has expired at the time of counting, then with M the number
of identifiers whose `getNodeData` failed, exactly K − M entries exist in the store. -/
theorem C5_sweep_visits_all (w0 : World) (ws : Nat → World) (a : App)
    (recs : List DirRecord) (t : Nat) (hq : w0.query allNodesQuery = .ok recs) :
    (cacheNodesInfo w0 ws a).2.filterMap Event.getNodeDataArg =
        (recs.map (fun r => r.NodeID)).map fmtSprint ∧
      (a.redis = [] → (recs.map (fun r => r.NodeID)).Nodup →
        (∀ i, i < recs.length → (ws i).redisSetErr = none ∧ t < (ws i).now + 30 * 60) →
        ((cacheNodesInfo w0 ws a).2.filter Event.isFetchFailure).length ≤ recs.length ∧
        (redisKeys (cacheNodesInfo w0 ws a).1.redis t).length =
          recs.length - ((cacheNodesInfo w0 ws a).2.filter Event.isFetchFailure).length) := by
  rw [cacheNodesInfo_ok w0 ws a recs hq]
  constructor
  · simp only [List.filterMap_append, List.filterMap_cons, List.filterMap_nil,
      Event.getNodeDataArg, List.nil_append, List.append_nil]
    exact cacheNodesLoop_calls ws _ 0 a
  · intro hempty hnd hws
    have h := cacheNodesLoop_store ws t (recs.map (fun r => r.NodeID)) 0 a
      (by intro n _; rw [hempty]; simp) hnd
      (by
        intro j hj
        rw [List.length_map] at hj
        rw [Nat.zero_add]
        exact hws j hj)
    rw [hempty] at h
    have h0 : (redisKeys ([] : List (String × RedisItem)) t).length = 0 := rfl
    rw [h0, List.length_map, Nat.zero_add] at h
    simp only [List.filter_append, List.filter_cons, List.filter_nil, Event.isFetchFailure,
      List.nil_append, List.append_nil, Bool.false_eq_true, if_false]
    omega

/-- A sweep over the one node of the example directory. -/
theorem C5_sweep_witness :
    (redisKeys (cacheNodesInfo exWorld (fun _ => exWorld) emptyApp).1.redis 100).length =
      1 - ((cacheNodesInfo exWorld (fun _ => exWorld) emptyApp).2.filter
        Event.isFetchFailure).length :=
  ((C5_sweep_visits_all exWorld (fun _ => exWorld) emptyApp [⟨7, 42⟩] 100 (by decide)).2
    (by decide) (by decide) (by decide)).2

/-! ## Witnesses of C2, C3, C8 -/

/-- The DMI call failing after the capacity call succeeded. -/
theorem C2_remote_failure_witness :
    (getNodeData dmiFaultWorld emptyApp "7").val = .error .ErrBadGateway ∧
      (getNodeData dmiFaultWorld emptyApp "7").app.redis = emptyApp.redis :=
  ⟨(C2_remote_failure_bad_gateway dmiFaultWorld emptyApp "7" 42 (by decide) (by decide)
      (Or.inr (Or.inl ⟨(⟨8, 0, 0, 0, 0⟩, ⟨2, 0, 0, 0, 0⟩), "timeout", rfl, rfl⟩))).1,
    (C2_remote_failure_bad_gateway dmiFaultWorld emptyApp "7" 42 (by decide) (by decide)
      (Or.inr (Or.inl ⟨(⟨8, 0, 0, 0, 0⟩, ⟨2, 0, 0, 0, 0⟩), "timeout", rfl, rfl⟩))).2.1⟩

/-- A node the directory does not know, both caches empty. -/
theorem C3_absent_node_witness :
    (getNodeTwinID absentWorld emptyApp "7").val = .error .ErrNodeNotFound ∧
      (getNodeData absentWorld emptyApp "7").val = .error .ErrNodeNotFound :=
  ⟨(C3_absent_node_not_found absentWorld emptyApp "7" (by decide) (by decide)).1,
    ((C3_absent_node_not_found absentWorld emptyApp "7" (by decide) (by decide)).2.2.2
      (by decide)).1⟩

/-- A store that refuses the write. -/
theorem C8_write_failure_witness :
    (getNodeData writeFaultWorld emptyApp "7").val =
      .ok "\x7b\"capacity\":\x7b\"total\":8,\"used\":2\x7d,\"dmi\":null,\"hypervisor\":\"kvm\"\x7d" :=
  (C8_write_failure_swallowed writeFaultWorld emptyApp "7"
    ⟨⟨⟨8, 0, 0, 0, 0⟩, ⟨2, 0, 0, 0, 0⟩⟩, ⟨[]⟩, "kvm"⟩ _ "connection refused"
    (by decide) (by decide) (by decide) (by decide)).1

/-! ## Query parameters -/

theorem wrapInt_of_range (x : Int) (h1 : -2 ^ 63 ≤ x) (h2 : x < 2 ^ 63) : wrapInt x = x := by
  unfold wrapInt
  rw [Int.emod_eq_of_lt (by omega) (by omega)]
  omega

theorem calculateMaxResult_ok (r : Request) (m : Int) :
    calculateMaxResult r = .ok m ↔ Atoi (maxResultText r) = .ok m := by
  show (match Atoi (maxResultText r) with
    | .error err => Except.error (Err.wrap "invalid page number" err)
    | .ok maxResult => Except.ok maxResult) = .ok m ↔ _
  cases Atoi (maxResultText r) <;> simp

theorem calculateOffset_ok (r : Request) (m o : Int) :
    calculateOffset m r = .ok o ↔
      ∃ p, Atoi (pageText r) = .ok p ∧ 1 ≤ p ∧ o = wrapInt ((p - 1) * m) := by
  show (match Atoi (pageText r) with
    | .error err => Except.error (Err.wrap "invalid page number" err)
    | .ok pageNumber =>
      if pageNumber < 1 then Except.error (Err.ext "invalid page number : %!w(<nil>)")
      else Except.ok (wrapInt ((pageNumber - 1) * m))) = .ok o ↔ _
  cases Atoi (pageText r) with
  | error e => simp
  | ok p =>
    by_cases h : p < 1
    · simp [h]
    · simp [h]
      constructor
      · intro hc; exact ⟨by omega, hc.symm⟩
      · intro hc; exact hc.2.symm

theorem handle_ok_parse (r : Request) (c : Ctx) (h : handleRequestsQueryParams r = .ok c) :
    ∃ m p, Atoi (maxResultText r) = .ok m ∧ Atoi (pageText r) = .ok p ∧ 1 ≤ p ∧
      c.maxResult = m ∧ c.offset = wrapInt ((p - 1) * m) := by
  unfold handleRequestsQueryParams at h
  cases hm : calculateMaxResult r with
  | error e => simp only [hm] at h; cases h
  | ok m =>
    simp only [hm] at h
    cases ho : calculateOffset m r with
    | error e => simp only [ho] at h; cases h
    | ok o =>
      simp only [ho] at h
      obtain ⟨p, hp, hp1, rfl⟩ := (calculateOffset_ok r m o).1 ho
      cases h
      exact ⟨m, p, (calculateMaxResult_ok r m).1 hm, hp, hp1, rfl, rfl⟩

theorem handle_of_parse (r : Request) (m p : Int) (hm : Atoi (maxResultText r) = .ok m)
    (hp : Atoi (pageText r) = .ok p) (h1 : 1 ≤ p) :
    ∃ c, handleRequestsQueryParams r = .ok c := by
  unfold handleRequestsQueryParams
  simp only [(calculateMaxResult_ok r m).2 hm,
    (calculateOffset_ok r m _).2 ⟨p, hp, h1, rfl⟩]
  exact ⟨_, rfl⟩

/-- Claim C10, as stated, fails: with `page=4611686018427387905` and `max_result=4` both
parameters parse, the page is at least 1 and the call succeeds, but the offset stored is
0, not (p − 1) · m = 2^64: the product is taken in 64-bit `int` arithmetic. -/
theorem C10_offset_wraps :
    Atoi (paramOrDefault overflowRequest "max_result" "50") = .ok 4 ∧
      Atoi (paramOrDefault overflowRequest "page" "1") = .ok 4611686018427387905 ∧
      (∃ c, handleRequestsQueryParams overflowRequest = .ok c ∧ getMaxResult c = 4 ∧
        getOffset c = 0 ∧ getOffset c ≠ (4611686018427387905 - 1) * 4) := by
  refine ⟨by decide, by decide, ⟨"", 0, 4, ""⟩, by decide, by decide, by decide, by decide⟩

/-- Claim C10, amended: `handleRequestsQueryParams` succeeds if and only if `max_result`
(taken as `50` when absent or empty) parses as an integer `m` and `page` (taken as `1`
when absent or empty) parses as an integer `p` with `p ≥ 1`; on success it stores
maxResult = `m` and offset = (p − 1) · m reduced to the 64-bit range of Go `int`, which
is (p − 1) · m itself whenever that product fits; with both parameters absent
maxResult is 50 and offset is 0. -/
theorem C10_query_params (r : Request) :
    ((∃ c, handleRequestsQueryParams r = .ok c) ↔
        ∃ m p, Atoi (maxResultText r) = .ok m ∧ Atoi (pageText r) = .ok p ∧ 1 ≤ p) ∧
      (∀ c m p, handleRequestsQueryParams r = .ok c → Atoi (maxResultText r) = .ok m →
        Atoi (pageText r) = .ok p →
        getMaxResult c = m ∧ getOffset c = wrapInt ((p - 1) * m) ∧
        (-2 ^ 63 ≤ (p - 1) * m → (p - 1) * m < 2 ^ 63 → getOffset c = (p - 1) * m)) ∧
      (r.Query.lookup "max_result" = none → r.Query.lookup "page" = none →
        ∃ c, handleRequestsQueryParams r = .ok c ∧ getMaxResult c = 50 ∧ getOffset c = 0) := by
  refine ⟨⟨?_, ?_⟩, ?_, ?_⟩
  · rintro ⟨c, hc⟩
    obtain ⟨m, p, h1, h2, h3, -, -⟩ := handle_ok_parse r c hc
    exact ⟨m, p, h1, h2, h3⟩
  · rintro ⟨m, p, h1, h2, h3⟩
    exact handle_of_parse r m p h1 h2 h3
  · intro c m p hc hm hp
    obtain ⟨m2, p2, h1, h2, h3, h4, h5⟩ := handle_ok_parse r c hc
    rw [hm] at h1; cases h1
    rw [hp] at h2; cases h2
    refine ⟨h4, h5, ?_⟩
    intro ha hb
    rw [getOffset, h5, wrapInt_of_range _ ha hb]
  · intro hm hp
    have h1 : maxResultText r = "50" := by simp [maxResultText, queryGet, hm]
    have h2 : pageText r = "1" := by simp [pageText, queryGet, hp]
    have hA : Atoi (maxResultText r) = .ok 50 := by rw [h1]; decide
    have hB : Atoi (pageText r) = .ok 1 := by rw [h2]; decide
    obtain ⟨c, hc⟩ := handle_of_parse r 50 1 hA hB (by omega)
    obtain ⟨m2, p2, g1, g2, g3, g4, g5⟩ := handle_ok_parse r c hc
    rw [hA] at g1; cases g1
    rw [hB] at g2; cases g2
    refine ⟨c, hc, g4, ?_⟩
    rw [getOffset, g5]
    decide

/-- A request without parameters. -/
theorem C10_query_params_witness :
    ∃ c, handleRequestsQueryParams ⟨"/nodes", []⟩ = .ok c ∧ getMaxResult c = 50 ∧
      getOffset c = 0 :=
  (C10_query_params ⟨"/nodes", []⟩).2.2 (by decide) (by decide)

/-! ## From the sweep to the liveness loop -/

theorem lookup_mem {β : Type} (l : List (String × β)) (k : String) (v : β)
    (h : l.lookup k = some v) : (k, v) ∈ l := by
  induction l with
  | nil => cases h
  | cons p l ih =>
    obtain ⟨pk, pv⟩ := p
    by_cases hk : k = pk
    · subst hk
      simp only [List.lookup_cons, beq_self_eq_true] at h
      cases h
      exact List.mem_cons_self _ _
    · have hne : (k == pk) = false := by simpa using hk
      simp only [List.lookup_cons, hne] at h
      exact List.mem_cons_of_mem _ (ih h)

/-- What `getNodeData` does to the store: nothing, or it puts the non-empty value it
returns under the key of the node, to expire in 30 minutes. -/
theorem getNodeData_store (w : World) (a : App) (nodeID : String) :
    (getNodeData w a nodeID).app.redis = a.redis ∨
      ∃ s, s ≠ "" ∧ (getNodeData w a nodeID).val = .ok s ∧
        (getNodeData w a nodeID).app.redis =
          redisPut a.redis (nodeKey nodeID) ⟨s, w.now + 30 * 60⟩ := by
  have hr := (fetchNodeData_shape w a nodeID).1
  by_cases hv : (GetRedisKey w a (nodeKey nodeID)).1 = ""
  · cases hfe : (fetchNodeData w a nodeID).val with
    | error err =>
      rw [getNodeData_fetchError w a nodeID err hv hfe]
      exact Or.inl hr
    | ok info =>
      cases hm : jsonMarshal w.enc info with
      | error e =>
        rw [getNodeData_marshalError w a nodeID info e hv hfe hm]
        exact Or.inl hr
      | ok s =>
        rw [getNodeData_fetched w a nodeID info s hv hfe hm]
        cases hs : w.redisSetErr with
        | some e =>
          rw [SetRedisKey_fault w _ _ _ e _ hs]
          exact Or.inl hr
        | none =>
          rw [SetRedisKey_ok w _ _ _ _ hs]
          refine Or.inr ⟨s, jsonMarshal_ne_empty _ _ _ hm, rfl, ?_⟩
          simp only [hr]
  · rw [getNodeData_hit w a nodeID hv]
    exact Or.inl rfl

theorem getNodeData_allFresh (w : World) (a : App) (nodeID : String) (t : Nat)
    (h : allFresh a t) (ht : t < w.now + 30 * 60) :
    allFresh (getNodeData w a nodeID).app t := by
  unfold allFresh at h ⊢
  rcases getNodeData_store w a nodeID with hs | ⟨s, -, -, hs⟩
  · rw [hs]; exact h
  · rw [hs]
    intro p hp
    simp only [redisPut, List.mem_cons] at hp
    rcases hp with rfl | hp
    · exact ht
    · exact h p (List.mem_of_mem_filter hp)

theorem getNodeData_holdsValue (w : World) (a : App) (nodeID key : String)
    (h : holdsValue a key) : holdsValue (getNodeData w a nodeID).app key := by
  unfold holdsValue at h ⊢
  rcases getNodeData_store w a nodeID with hs | ⟨s, hne, -, hs⟩
  · rw [hs]; exact h
  · rw [hs]
    by_cases hk : key = nodeKey nodeID
    · subst hk
      exact ⟨⟨s, w.now + 30 * 60⟩, by simp [redisPut, List.lookup_cons], hne⟩
    · obtain ⟨it, hit, hv⟩ := h
      refine ⟨it, ?_, hv⟩
      have hne2 : (key == nodeKey nodeID) = false := by simpa using hk
      simp only [redisPut, List.lookup_cons, hne2]
      rw [lookup_filter_ne a.redis _ key hk]
      exact hit

theorem getNodeData_ok_holdsValue (w : World) (a : App) (nodeID v : String)
    (hok : (getNodeData w a nodeID).val = .ok v) (hset : w.redisSetErr = none) :
    holdsValue (getNodeData w a nodeID).app (nodeKey nodeID) := by
  obtain ⟨hl, hne⟩ := getNodeData_ok_stored w a nodeID v hok hset
  unfold redisLive at hl
  cases hlk : (getNodeData w a nodeID).app.redis.lookup (nodeKey nodeID) with
  | none => rw [hlk] at hl; cases hl
  | some it =>
    rw [hlk] at hl
    simp only at hl
    by_cases hx : w.now < it.expiresAt
    · rw [if_pos hx] at hl
      cases hl
      exact ⟨it, hlk, hne⟩
    · rw [if_neg hx] at hl
      cases hl

theorem cacheNodesLoop_allFresh (ws : Nat → World) (t : Nat) (ids : List Nat) :
    ∀ (i : Nat) (a : App),
      (∀ j, j < ids.length → t < (ws (i + j)).now + 30 * 60) → allFresh a t →
      allFresh (cacheNodesLoop ws i a ids).1 t := by
  induction ids with
  | nil => intro i a _ h; exact h
  | cons nid rest ih =>
    intro i a hws h
    have h0 := hws 0 (by simp)
    rw [Nat.add_zero] at h0
    simp only [cacheNodesLoop]
    apply ih (i + 1) _ _ (getNodeData_allFresh (ws i) a (fmtSprint nid) t h h0)
    intro j hj
    have := hws (j + 1) (by simp; omega)
    rw [show i + (j + 1) = i + 1 + j by omega] at this
    exact this

theorem cacheNodesLoop_holdsValue (ws : Nat → World) (n : Nat) (ids : List Nat) :
    ∀ (i : Nat) (a : App),
      (∀ j, j < ids.length → (ws (i + j)).redisSetErr = none) →
      (holdsValue a (nodeKey (fmtSprint n)) ∨
        (n ∈ ids ∧ Event.fetchFailed n ∉ (cacheNodesLoop ws i a ids).2)) →
      holdsValue (cacheNodesLoop ws i a ids).1 (nodeKey (fmtSprint n)) := by
  induction ids with
  | nil =>
    intro i a _ h
    rcases h with h | ⟨hm, -⟩
    · exact h
    · cases hm
  | cons nid rest ih =>
    intro i a hws h
    have h0 := hws 0 (by simp)
    rw [Nat.add_zero] at h0
    have hrest : ∀ j, j < rest.length → (ws (i + 1 + j)).redisSetErr = none := by
      intro j hj
      have := hws (j + 1) (by simp; omega)
      rw [show i + (j + 1) = i + 1 + j by omega] at this
      exact this
    simp only [cacheNodesLoop] at h ⊢
    rcases h with h | ⟨hm, hnf⟩
    · exact ih (i + 1) _ hrest (Or.inl (getNodeData_holdsValue _ _ _ _ h))
    · simp only [List.mem_cons, List.mem_append, not_or] at hnf
      obtain ⟨-, ⟨-, hfail⟩, hk⟩ := hnf
      rcases List.mem_cons.1 hm with rfl | hm2
      · cases hv : (getNodeData (ws i) a (fmtSprint n)).val with
        | error err =>
          rw [hv] at hfail
          exact absurd (List.mem_singleton.2 rfl) hfail
        | ok v =>
          exact ih (i + 1) _ hrest
            (Or.inl (getNodeData_ok_holdsValue (ws i) a (fmtSprint n) v hv h0))
      · exact ih (i + 1) _ hrest (Or.inr ⟨hm2, hk⟩)

/-- Claim C9, amended: after a sweep of `cacheNodesInfo` in which node `n` was enumerated,
no failure was logged for `n` and no store write failed, the liveness loop of
`listNodes`, run before any entry of the store expires and with a lookup that does not
fail, reports State `up` for the node with NodeID `n`; and the key the warm uses,
`GRID3NODE:` followed by `fmt.Sprint(n)`, is the key the loop looks up. -/
theorem C9_warm_then_up (w0 w2 : World) (ws : Nat → World) (a : App)
    (recs : List DirRecord) (node : Node)
    (hq : w0.query allNodesQuery = .ok recs)
    (hmem : node.NodeID ∈ recs.map (fun r => r.NodeID))
    (hwarm : Event.fetchFailed node.NodeID ∉ (cacheNodesInfo w0 ws a).2)
    (hset : ∀ i, i < recs.length → (ws i).redisSetErr = none)
    (hnew : ∀ i, i < recs.length → w2.now < (ws i).now + 30 * 60)
    (hold : ∀ p ∈ a.redis, w2.now < p.2.expiresAt)
    (hget : w2.redisGetErr = none) :
    livenessLoop (fun _ => w2) (cacheNodesInfo w0 ws a).1 0 [node] =
        [{ node with State := "up" }] ∧
      nodeKey (fmtSprint node.NodeID) = nodeKeyD node.NodeID := by
  have hk : nodeKey (fmtSprint node.NodeID) = nodeKeyD node.NodeID := rfl
  refine ⟨?_, hk⟩
  have hloop : Event.fetchFailed node.NodeID ∉
      (cacheNodesLoop ws 0 a (recs.map (fun r => r.NodeID))).2 := by
    intro hin
    apply hwarm
    rw [cacheNodesInfo_ok w0 ws a recs hq]
    simp [hin]
  rw [cacheNodesInfo_ok w0 ws a recs hq]
  have hfresh := cacheNodesLoop_allFresh ws w2.now (recs.map (fun r => r.NodeID)) 0 a
    (by
      intro j hj
      rw [List.length_map] at hj
      rw [Nat.zero_add]
      exact hnew j hj) hold
  obtain ⟨it, hit, hne⟩ := cacheNodesLoop_holdsValue ws node.NodeID
    (recs.map (fun r => r.NodeID)) 0 a
    (by
      intro j hj
      rw [List.length_map] at hj
      rw [Nat.zero_add]
      exact hset j hj)
    (Or.inr ⟨hmem, hloop⟩)
  have hexp : w2.now < it.expiresAt := by
    have hmem2 := lookup_mem _ _ _ hit
    exact hfresh _ hmem2
  have hl : redisLive (cacheNodesLoop ws 0 a (recs.map (fun r => r.NodeID))).1.redis w2.now
      (nodeKeyD node.NodeID) = some it.value := by
    rw [← hk]
    simp only [redisLive, hit, if_pos hexp]
  have hg := GetRedisKey_live w2 _ _ _ hget hl
  simp only [livenessLoop]
  unfold livenessStep
  rw [hg]
  simp [hne]

/-- A sweep over the one node of the example directory, then the liveness loop. -/
theorem C9_warm_then_up_witness :
    livenessLoop (fun _ => exWorld) (cacheNodesInfo exWorld (fun _ => exWorld) emptyApp).1 0
      [⟨7, 1, 42, ""⟩] = [⟨7, 1, 42, "up"⟩] :=
  (C9_warm_then_up exWorld exWorld (fun _ => exWorld) emptyApp [⟨7, 42⟩] ⟨7, 1, 42, ""⟩
    (by decide) (by decide) (by decide) (fun _ _ => rfl) (fun _ _ => (by decide : exWorld.now < exWorld.now + 30 * 60))
    (by decide) (by decide)).1


/-! ## The liveness loop on the states the program reaches -/

theorem getNodeData_valuesNonEmpty (w : World) (a : App) (nodeID : String)
    (h : valuesNonEmpty a) : valuesNonEmpty (getNodeData w a nodeID).app := by
  unfold valuesNonEmpty at h ⊢
  rcases getNodeData_store w a nodeID with hs | ⟨s, hne, -, hs⟩
  · rw [hs]; exact h
  · rw [hs]
    intro p hp
    simp only [redisPut, List.mem_cons] at hp
    rcases hp with rfl | hp
    · exact hne
    · exact h p (List.mem_of_mem_filter hp)

theorem cacheNodesLoop_valuesNonEmpty (ws : Nat → World) (ids : List Nat) :
    ∀ (i : Nat) (a : App), valuesNonEmpty a →
      valuesNonEmpty (cacheNodesLoop ws i a ids).1 := by
  induction ids with
  | nil => intro i a h; exact h
  | cons nid rest ih =>
    intro i a h
    simp only [cacheNodesLoop]
    exact ih (i + 1) _ (getNodeData_valuesNonEmpty (ws i) a (fmtSprint nid) h)

/-- The sweep keeps every stored value non-empty, from whatever world it enumerates. -/
theorem cacheNodesInfo_valuesNonEmpty (w0 : World) (ws : Nat → World) (a : App)
    (h : valuesNonEmpty a) : valuesNonEmpty (cacheNodesInfo w0 ws a).1 := by
  unfold cacheNodesInfo
  exact cacheNodesLoop_valuesNonEmpty ws _ 0 a h

theorem redisLive_value_mem (r : List (String × RedisItem)) (now : Nat) (k v : String)
    (h : redisLive r now k = some v) : ∃ it, (k, it) ∈ r ∧ it.value = v := by
  unfold redisLive at h
  cases hl : r.lookup k with
  | none => rw [hl] at h; cases h
  | some it =>
    rw [hl] at h
    simp only at h
    by_cases hx : now < it.expiresAt
    · rw [if_pos hx] at h
      cases h
      exact ⟨it, lookup_mem r k it hl, rfl⟩
    · rw [if_neg hx] at h
      cases h

/-- Claim C4: for every node record processed by the liveness loop of `listNodes`, with a
store lookup that reports a key without value as an error (the only way the loop has to
reach `down`) and a store whose values are non-empty (as all values the program writes
are), the State assigned is `up` if and only if the lookup succeeds and the store holds
a value under `GRID3NODE:<nodeId>`, and is `down` in every other case: when the lookup
fails, and when the store holds no value under the key. -/
theorem C4_state_up_iff_value_held (w : World) (a : App) (node : Node)
    (hnil : w.redisNilErr ≠ none) (hval : valuesNonEmpty a) :
    ((livenessStep w a node).State = "up" ↔
        (w.redisGetErr = none ∧
          ∃ v, redisLive a.redis w.now (nodeKeyD node.NodeID) = some v)) ∧
      (¬ (w.redisGetErr = none ∧
          ∃ v, redisLive a.redis w.now (nodeKeyD node.NodeID) = some v) →
        (livenessStep w a node).State = "down") ∧
      (w.redisGetErr ≠ none → (livenessStep w a node).State = "down") ∧
      (redisLive a.redis w.now (nodeKeyD node.NodeID) = none →
        (livenessStep w a node).State = "down") := by
  obtain ⟨hup, hdown, -⟩ := livenessStep_cases w a node
  have hne : ("down" : String) ≠ "up" := by decide
  cases hg : w.redisGetErr with
  | some e =>
    have hk := GetRedisKey_fault w a (nodeKeyD node.NodeID) e hg
    have hst : (livenessStep w a node).State = "down" := by
      rw [hdown (by rw [hk]) (by rw [hk]; simp)]
    refine ⟨⟨?_, ?_⟩, fun _ => hst, fun _ => hst, fun _ => hst⟩
    · intro h; rw [hst] at h; exact absurd h hne
    · rintro ⟨h, -⟩; cases h
  | none =>
    cases hl : redisLive a.redis w.now (nodeKeyD node.NodeID) with
    | none =>
      have hk := GetRedisKey_absent w a (nodeKeyD node.NodeID) hg hl
      obtain ⟨e, he⟩ := Option.ne_none_iff_exists'.1 hnil
      have hst : (livenessStep w a node).State = "down" := by
        rw [hdown (by rw [hk]) (by rw [hk, he]; simp)]
      refine ⟨⟨?_, ?_⟩, fun _ => hst, fun _ => hst, fun _ => hst⟩
      · intro h; rw [hst] at h; exact absurd h hne
      · rintro ⟨-, v, hv⟩; cases hv
    | some v =>
      have hk := GetRedisKey_live w a (nodeKeyD node.NodeID) v hg hl
      obtain ⟨it, hmem, hv⟩ := redisLive_value_mem _ _ _ _ hl
      have hvne : v ≠ "" := by rw [← hv]; exact hval _ hmem
      have hst : (livenessStep w a node).State = "up" := by
        rw [hup (by rw [hk]; exact hvne)]
      refine ⟨⟨fun _ => ⟨rfl, v, rfl⟩, fun _ => hst⟩, ?_, ?_, ?_⟩
      · intro h; exact absurd ⟨rfl, v, rfl⟩ h
      · intro h; exact absurd rfl h
      · intro h; cases h

/-- A node whose value is held is `up`, a node without value is `down`, and a held value
behind a failing lookup is `down`. -/
theorem C4_state_witness :
    (livenessStep nilErrWorld cachedApp ⟨7, 1, 42, ""⟩).State = "up" ∧
      (livenessStep nilErrWorld emptyApp ⟨7, 1, 42, ""⟩).State = "down" ∧
      (livenessStep ({ nilErrWorld with redisGetErr := some "connection refused" })
        cachedApp ⟨7, 1, 42, ""⟩).State = "down" :=
  ⟨(C4_state_up_iff_value_held nilErrWorld cachedApp ⟨7, 1, 42, ""⟩ (by decide)
      (by unfold valuesNonEmpty; decide)).1.2 ⟨rfl, "cached", by decide⟩,
    (C4_state_up_iff_value_held nilErrWorld emptyApp ⟨7, 1, 42, ""⟩ (by decide)
      (by unfold valuesNonEmpty; decide)).2.2.2 (by decide),
    (C4_state_up_iff_value_held ({ nilErrWorld with redisGetErr := some "connection refused" })
      cachedApp ⟨7, 1, 42, ""⟩ (by decide) (by unfold valuesNonEmpty; decide)).2.2.1
      (by decide)⟩

end Explorer
